import Mathlib

/-!
# fdfs_client storage tasks: wire-format verification

A shallow embedding of `storage.go`: the request encoders (`SendReq`) and response
decoders (`RecvRes`) of the storage tasks, over an explicit model of the connection.

Conventions of the embedding.
* A Go `string` or `[]byte` is a `List Byte`, a byte is a `Fin 256`.
* `int64`, `int32` and `int8` values are `Int`; arithmetic that can wrap goes through
  `wrapInt64`, conversions to bytes reduce modulo the width.
* A method `func (this *T) M(conn net.Conn) error` becomes a function from the task and
  the connection to a `Step T`: the returned error (or the runtime panic that unwinds the
  call), the task after the call, and the connection after the call.
-/

namespace FdfsClient

/-! ## Bytes and integers -/

abbrev Byte := Fin 256

/-- Two's-complement reduction of an integer to the range of `int64`. -/
def wrapInt64 (x : Int) : Int := (x + 2 ^ 63) % 2 ^ 64 - 2 ^ 63

/-- Two's-complement reduction of an integer to the range of `int32`. -/
def wrapInt32 (x : Int) : Int := (x + 2 ^ 31) % 2 ^ 32 - 2 ^ 31

/-- Go conversion `byte(x)` of a signed integer: the low eight bits. -/
def toByte (x : Int) : Byte := Fin.ofNat (x % 256).toNat

/-- The `w` low-order base-256 digits of `n`, most significant first. -/
def beBytes : Nat → Nat → List Byte
  | 0, _ => []
  | w + 1, n => Fin.ofNat (n / 256 ^ w % 256) :: beBytes w n

/-- The natural number whose base-256 digits, most significant first, are `bs`. -/
def beNat (bs : List Byte) : Nat := bs.foldl (fun acc b => acc * 256 + b.val) 0

/-- Bytes appended by `binary.Write(buffer, binary.BigEndian, v)` for an `int64` value. -/
def binaryWriteInt64 (v : Int) : List Byte := beBytes 8 (v % 2 ^ 64).toNat

/-- Outcome of `binary.Read(buff, binary.BigEndian, &v)` on a `bytes.Buffer` holding `buf`,
for a target of `w` bytes: the unsigned value read (`none` when the buffer runs short,
in which case the target keeps its value) and the unread rest of the buffer.
A short buffer is drained by the attempt. -/
def binaryRead (w : Nat) (buf : List Byte) : Option Nat × List Byte :=
  if buf.length < w then (none, []) else (some (beNat (buf.take w)), buf.drop w)

/-! ## Errors and results -/

/-- The errors the storage tasks return. -/
inductive GoError where
  /-- error returned by `conn.Read` or `conn.Write` -/
  | connError
  /-- response header shorter than ten bytes -/
  | shortHeader
  /-- response header with a non-zero status byte -/
  | badStatus (status : Byte)
  /-- "recv file id pkgLen <= FDFS_GROUP_NAME_MAX_LEN" -/
  | pkgLenTooShort
  /-- "recv file id pkgLen > 100,can't be so long" -/
  | pkgLenTooLong
  /-- fewer bytes in the buffer than a fixed-width field needs -/
  | shortField
  /-- "StorageDownloadTask buffer < pkgLen can't recv" -/
  | bufferTooSmall
  /-- error returned by `os.Create` or by the file writer's `Flush` -/
  | fileError
  deriving DecidableEq, Repr

/-- How a call ended: `nil` error, a returned error, or a runtime panic. -/
inductive Res where
  | ok
  | err (e : GoError)
  /-- index out of range in a fixed-size array -/
  | indexOutOfRange
  /-- `make([]byte, n)` with a negative length -/
  | makeSliceLen
  deriving DecidableEq, Repr

/-! ## The connection -/

/-- A `net.Conn` as the tasks see it.
* `pending`: bytes the peer has sent that no `Read` has returned yet;
* `segs`: for each coming `Read` call, the most bytes that call will deliver (a stream
  read may return fewer bytes than asked for); when the list is used up, reads deliver
  all they are asked for;
* `written`: every byte written so far, in order;
* `writable`: the number of coming `Write` calls that succeed; later ones fail. -/
structure Conn where
  pending : List Byte
  segs : List Nat
  written : List Byte
  writable : Nat
  deriving DecidableEq, Repr

/-- The number of bytes the next `Read` into a buffer of `n` bytes returns: at least one
when the buffer is non-empty and bytes are pending, never more than asked, than pending,
or than the segment allows. -/
def Conn.readCount (c : Conn) (n : Nat) : Nat :=
  match c.segs with
  | [] => min n c.pending.length
  | s :: _ => min (min n c.pending.length) (max 1 s)

/-- Result of `conn.Read(buf)`: `none` is an error (the stream is at its end), otherwise
the buffer after the call (the bytes read overwrite its start, the rest is untouched), the
count `n` returned, and the connection after the call. -/
def Conn.Read (c : Conn) (buf : List Byte) : Option (List Byte × Nat × Conn) :=
  if buf.length = 0 then some (buf, 0, c)
  else if c.pending = [] then none
  else
    let k := c.readCount buf.length
    some (c.pending.take k ++ buf.drop k, k,
      { c with pending := c.pending.drop k, segs := c.segs.tail })

/-- Result of `conn.Write(bs)`: `none` is an error, otherwise the connection after the
call, all of `bs` appended to what was written. -/
def Conn.Write (c : Conn) (bs : List Byte) : Option Conn :=
  if c.writable = 0 then none
  else some { c with written := c.written ++ bs, writable := c.writable - 1 }

/-- A method call's outcome: result, receiver after the call, connection after the call. -/
structure Step (τ : Type) where
  res : Res
  task : τ
  conn : Conn

/-! ## Declarations that `storage.go` uses and does not contain -/

/-- Modelled from the spec: the command codes `STORAGE_PROTO_CMD_*`, declared outside
`storage.go`; the spec fixes no numeric values ("a fixed protocol constant table"), so the
table is a parameter of every `SendReq`. -/
structure ProtoCmd where
  STORAGE_PROTO_CMD_UPLOAD_FILE : Byte
  STORAGE_PROTO_CMD_DOWNLOAD_FILE : Byte
  STORAGE_PROTO_CMD_DELETE_FILE : Byte
  STORAGE_PROTO_CMD_UPLOAD_SLAVE_FILE : Byte
  STORAGE_PROTO_CMD_QUERY_FILE_INFO : Byte
  deriving DecidableEq, Repr

/-- Modelled from the spec: the embedded `header` struct, declared outside `storage.go`:
"three fields - payloadLength (int64), command (uint8), status (uint8)". -/
structure header where
  pkgLen : Int
  cmd : Byte
  status : Byte
  deriving DecidableEq, Repr

/-- The ten bytes of a frame header: "8-byte big-endian length, 1-byte command, 1-byte
status". -/
def header.bytes (h : header) : List Byte :=
  binaryWriteInt64 h.pkgLen ++ [h.cmd, h.status]

/-- Modelled from the spec: `SendHeader` is not in `storage.go`. "serializes 8-byte
big-endian length, 1-byte command, 1-byte status, writes in one contiguous send. Fails
with IOError if the underlying write is short or errors." -/
def header.SendHeader (h : header) (conn : Conn) : Option Conn :=
  conn.Write h.bytes

/-- Modelled from the spec: `RecvHeader` is not in `storage.go`. "reads exactly 10 bytes,
fails with IOError on short read, fails with ProtocolError if status byte is non-zero";
the header fields are "overwritten per response" once the ten bytes are parsed. -/
def header.RecvHeader (h : header) (conn : Conn) : Res × header × Conn :=
  match conn.Read (List.replicate 10 0) with
  | none => (.err .connError, h, conn)
  | some (buf, n, conn1) =>
    if n < 10 then (.err .shortHeader, h, conn1)
    else
      let h1 : header :=
        { pkgLen := wrapInt64 (beNat (buf.take 8)), cmd := buf.getD 8 0, status := buf.getD 9 0 }
      if h1.status ≠ 0 then (.err (.badStatus h1.status), h1, conn1)
      else (.ok, h1, conn1)

/-- The string without its trailing null bytes. -/
def trimNulls (bs : List Byte) : List Byte :=
  (bs.reverse.dropWhile (fun b => b = 0)).reverse

/-- Modelled from the spec: `readCStrFromByteBuffer` is not in `storage.go`. "reads width
bytes, trims trailing null bytes, fails with ProtocolError if fewer than width bytes are
available." Returns the string and the unread rest of the buffer. -/
def readCStrFromByteBuffer (buffer : List Byte) (size : Nat) : Option (List Byte × List Byte) :=
  if buffer.length < size then none
  else some (trimNulls (buffer.take size), buffer.drop size)

/-- Modelled from the spec: the struct `fileInfo` is declared outside `storage.go`; these
are the fields `storage.go` reads. `file` is the open file handle (`nil` for an in-memory
source), modelled by the bytes that streaming it to the end yields. -/
structure fileInfo where
  fileSize : Int
  buffer : List Byte
  file : Option (List Byte)
  fileExtName : List Byte
  deriving DecidableEq, Repr

/-- The loop `for i := 0; i < len(src); i++ { arr[i] = src[i] }` from index `i` on, into
a fixed-size array `arr`: `none` when an index falls outside the array (Go panics). -/
def copyInto : List Byte → Nat → List Byte → Option (List Byte)
  | [], _, arr => some arr
  | b :: rest, i, arr => if i < arr.length then copyInto rest (i + 1) (arr.set i b) else none

/-! ## Upload task -/

structure storageUploadTask where
  hdr : header
  fileInfo : fileInfo
  storagePathIndex : Int
  fileId : List Byte
  deriving DecidableEq, Repr

/-- The body transfer at the end of an upload: `ReadFrom(file)` when a file handle is
set, else one `Write` of the in-memory buffer. -/
def sendFile (fi : fileInfo) (conn : Conn) : Option Conn :=
  match fi.file with
  | some content => conn.Write content
  | none => conn.Write fi.buffer

def storageUploadTask.SendReq (P : ProtoCmd) (this : storageUploadTask) (conn : Conn) :
    Step storageUploadTask :=
  let this := { this with hdr := { this.hdr with cmd := P.STORAGE_PROTO_CMD_UPLOAD_FILE } }
  let this := { this with hdr := { this.hdr with pkgLen := wrapInt64 (this.fileInfo.fileSize + 15) } }
  match this.hdr.SendHeader conn with
  | none => ⟨.err .connError, this, conn⟩
  | some conn =>
    let buffer : List Byte := []
    let buffer := buffer ++ [toByte this.storagePathIndex]
    let buffer := buffer ++ binaryWriteInt64 this.fileInfo.fileSize
    let byteFileExtName := this.fileInfo.fileExtName
    match copyInto byteFileExtName 0 (List.replicate 6 0) with
    | none => ⟨.indexOutOfRange, this, conn⟩
    | some bufferFileExtName =>
      let buffer := buffer ++ bufferFileExtName
      match conn.Write buffer with
      | none => ⟨.err .connError, this, conn⟩
      | some conn =>
        match sendFile this.fileInfo conn with
        | none => ⟨.err .connError, this, conn⟩
        | some conn => ⟨.ok, this, conn⟩

def storageUploadTask.RecvRes (this : storageUploadTask) (conn : Conn) :
    Step storageUploadTask :=
  match this.hdr.RecvHeader conn with
  | (.ok, h, conn) =>
    let this := { this with hdr := h }
    if this.hdr.pkgLen ≤ 16 then ⟨.err .pkgLenTooShort, this, conn⟩
    else if this.hdr.pkgLen > 100 then ⟨.err .pkgLenTooLong, this, conn⟩
    else
      let buf : List Byte := List.replicate this.hdr.pkgLen.toNat 0
      match conn.Read buf with
      | none => ⟨.err .connError, this, conn⟩
      | some (buf, _, conn) =>
        let buffer := buf
        match readCStrFromByteBuffer buffer 16 with
        | none => ⟨.err .shortField, this, conn⟩
        | some (groupName, buffer) =>
          match readCStrFromByteBuffer buffer (this.hdr.pkgLen.toNat - 16) with
          | none => ⟨.err .shortField, this, conn⟩
          | some (remoteFileName, _) =>
            ⟨.ok, { this with fileId := groupName ++ [47] ++ remoteFileName }, conn⟩
  | (r, h, conn) => ⟨r, { this with hdr := h }, conn⟩

/-! ## Download task -/

structure storageDownloadTask where
  hdr : header
  groupName : List Byte
  remoteFilename : List Byte
  offset : Int
  downloadBytes : Int
  localFilename : List Byte
  buffer : Option (List Byte)
  deriving DecidableEq, Repr

def storageDownloadTask.SendReq (P : ProtoCmd) (this : storageDownloadTask) (conn : Conn) :
    Step storageDownloadTask :=
  let this := { this with hdr := { this.hdr with cmd := P.STORAGE_PROTO_CMD_DOWNLOAD_FILE } }
  let this := { this with
    hdr := { this.hdr with pkgLen := wrapInt64 ((this.remoteFilename.length : Int) + 32) } }
  match this.hdr.SendHeader conn with
  | none => ⟨.err .connError, this, conn⟩
  | some conn =>
    let buffer : List Byte := []
    let buffer := buffer ++ binaryWriteInt64 this.offset
    let buffer := buffer ++ binaryWriteInt64 this.downloadBytes
    let byteGroupName := this.groupName
    match copyInto byteGroupName 0 (List.replicate 16 0) with
    | none => ⟨.indexOutOfRange, this, conn⟩
    | some bufferGroupName =>
      let buffer := buffer ++ bufferGroupName
      let buffer := buffer ++ this.remoteFilename
      match conn.Write buffer with
      | none => ⟨.err .connError, this, conn⟩
      | some conn => ⟨.ok, this, conn⟩

/-- Modelled from the spec: the retry loop shared by `writeFromConnToBuffer` and
`writeFromConn`, neither of which is in `storage.go`: "short reads are retried internally
(loop until length satisfied or connection error)". Reads until `need` bytes have arrived
or a read fails, asking each time for what is still missing; at most `fuel` reads.
Returns whether the length was reached, the bytes received, and the connection after the
last read. -/
def readFull : Nat → Conn → Nat → Bool × List Byte × Conn
  | 0, conn, need => (decide (need = 0), [], conn)
  | fuel + 1, conn, need =>
    if need = 0 then (true, [], conn)
    else
      match conn.Read (List.replicate need 0) with
      | none => (false, [], conn)
      | some (buf, n, conn1) =>
        let (done, rest, conn2) := readFull fuel conn1 (need - n)
        (done, buf.take n ++ rest, conn2)

/-- Modelled from the spec: `writeFromConnToBuffer` is not in `storage.go`. The buffer
paths "must read exactly payloadLength bytes - short reads are retried internally (loop
until length satisfied or connection error)"; the caller's buffer is filled from its
start. Every read that returns delivers at least one byte, so `size` reads are enough.
Returns whether it succeeded, the buffer after the call, and the connection. -/
def writeFromConnToBuffer (conn : Conn) (buffer : List Byte) (size : Int) :
    Bool × List Byte × Conn :=
  let (done, data, conn1) := readFull size.toNat conn size.toNat
  (done, data ++ buffer.drop data.length, conn1)

/-- Modelled from the spec: `writeFromConn` is not in `storage.go`. It streams
"payloadLength bytes from the connection" into a writer, with the same retry loop.
Returns whether it succeeded, the bytes handed to the writer, and the connection. -/
def writeFromConn (conn : Conn) (size : Int) : Bool × List Byte × Conn :=
  readFull size.toNat conn size.toNat

/-- The slice `writer.Bytes()` of a `bytes.Buffer` created by `new(bytes.Buffer)` into
which the bytes `written` have been written: `nil` as long as no byte was written. -/
def bufferBytes (written : List Byte) : Option (List Byte) :=
  if written = [] then none else some written

def storageDownloadTask.recvBuffer (this : storageDownloadTask) (conn : Conn) :
    Step storageDownloadTask :=
  match this.buffer with
  | some buffer =>
    if (buffer.length : Int) < this.hdr.pkgLen then ⟨.err .bufferTooSmall, this, conn⟩
    else
      let (done, buffer, conn) := writeFromConnToBuffer conn buffer this.hdr.pkgLen
      let this := { this with buffer := some buffer }
      if done then ⟨.ok, this, conn⟩ else ⟨.err .connError, this, conn⟩
  | none =>
    let (done, writer, conn) := writeFromConn conn this.hdr.pkgLen
    if done then ⟨.ok, { this with buffer := bufferBytes writer }, conn⟩
    else ⟨.err .connError, this, conn⟩

/-- The local file system as `recvFile` sees it: whether `os.Create` succeeds, whether
the final `Flush` succeeds, and the files created so far, newest first, each with its
name and its content (`none` for a file left incomplete by a failed transfer). -/
structure Disk where
  creatable : Bool
  flushable : Bool
  files : List (List Byte × Option (List Byte))
  deriving DecidableEq, Repr

def storageDownloadTask.recvFile (this : storageDownloadTask) (conn : Conn) (disk : Disk) :
    Step storageDownloadTask × Disk :=
  if !disk.creatable then (⟨.err .fileError, this, conn⟩, disk)
  else
    let w := writeFromConn conn this.hdr.pkgLen
    if !w.1 then
      (⟨.err .connError, this, w.2.2⟩,
        { disk with files := (this.localFilename, none) :: disk.files })
    else if !disk.flushable then
      (⟨.err .fileError, this, w.2.2⟩,
        { disk with files := (this.localFilename, none) :: disk.files })
    else
      (⟨.ok, this, w.2.2⟩,
        { disk with files := (this.localFilename, some w.2.1) :: disk.files })

def storageDownloadTask.RecvRes (this : storageDownloadTask) (conn : Conn) (disk : Disk) :
    Step storageDownloadTask × Disk :=
  match this.hdr.RecvHeader conn with
  | (.ok, h, conn) =>
    let this := { this with hdr := h }
    if this.localFilename ≠ [] then this.recvFile conn disk
    else (this.recvBuffer conn, disk)
  | (r, h, conn) => (⟨r, { this with hdr := h }, conn⟩, disk)

/-! ## Delete task -/

structure storageDeleteTask where
  hdr : header
  groupName : List Byte
  remoteFilename : List Byte
  deriving DecidableEq, Repr

def storageDeleteTask.SendReq (P : ProtoCmd) (this : storageDeleteTask) (conn : Conn) :
    Step storageDeleteTask :=
  let this := { this with hdr := { this.hdr with cmd := P.STORAGE_PROTO_CMD_DELETE_FILE } }
  let this := { this with
    hdr := { this.hdr with pkgLen := wrapInt64 ((this.remoteFilename.length : Int) + 16) } }
  match this.hdr.SendHeader conn with
  | none => ⟨.err .connError, this, conn⟩
  | some conn =>
    let buffer : List Byte := []
    let byteGroupName := this.groupName
    match copyInto byteGroupName 0 (List.replicate 16 0) with
    | none => ⟨.indexOutOfRange, this, conn⟩
    | some bufferGroupName =>
      let buffer := buffer ++ bufferGroupName
      let buffer := buffer ++ this.remoteFilename
      match conn.Write buffer with
      | none => ⟨.err .connError, this, conn⟩
      | some conn => ⟨.ok, this, conn⟩

def storageDeleteTask.RecvRes (this : storageDeleteTask) (conn : Conn) :
    Step storageDeleteTask :=
  match this.hdr.RecvHeader conn with
  | (r, h, conn) => ⟨r, { this with hdr := h }, conn⟩

/-! ## Upload slave task -/

structure storageUploadSlaveTask where
  hdr : header
  fileInfo : fileInfo
  storagePathIndex : Int
  fileId : List Byte
  masterFilename : List Byte
  prefixName : List Byte
  fileExtName : List Byte
  deriving DecidableEq, Repr

/-- The loop `for i := 0; i < n; i++ { if i >= len(bs) { WriteByte(0) } else
{ WriteByte(bs[i]) } }`: the bytes it appends. -/
def writeFixed (n : Nat) (bs : List Byte) : List Byte :=
  (List.range n).map (fun i => if i ≥ bs.length then 0 else bs.getD i 0)

def storageUploadSlaveTask.SendReq (P : ProtoCmd) (this : storageUploadSlaveTask)
    (conn : Conn) : Step storageUploadSlaveTask :=
  let this := { this with hdr := { this.hdr with cmd := P.STORAGE_PROTO_CMD_UPLOAD_SLAVE_FILE } }
  let masterFilenameLen : Int := (this.masterFilename.length : Int)
  let headerLen : Int := wrapInt64 (38 + masterFilenameLen)
  let this := { this with
    hdr := { this.hdr with pkgLen := wrapInt64 (this.fileInfo.fileSize + headerLen) } }
  match this.hdr.SendHeader conn with
  | none => ⟨.err .connError, this, conn⟩
  | some conn =>
    let buffer : List Byte := []
    let buffer := buffer ++ binaryWriteInt64 masterFilenameLen
    let buffer := buffer ++ binaryWriteInt64 this.fileInfo.fileSize
    let prefixNameBytes := this.prefixName
    let buffer := buffer ++ writeFixed 16 prefixNameBytes
    let fileExtNameBytes := this.fileExtName
    let buffer := buffer ++ writeFixed 6 fileExtNameBytes
    let masterFilenameBytes := this.masterFilename
    let buffer := buffer ++
      (List.range masterFilenameLen.toNat).map (fun i => masterFilenameBytes.getD i 0)
    match conn.Write buffer with
    | none => ⟨.err .connError, this, conn⟩
    | some conn =>
      match sendFile this.fileInfo conn with
      | none => ⟨.err .connError, this, conn⟩
      | some conn => ⟨.ok, this, conn⟩

def storageUploadSlaveTask.RecvRes (this : storageUploadSlaveTask) (conn : Conn) :
    Step storageUploadSlaveTask :=
  match this.hdr.RecvHeader conn with
  | (.ok, h, conn) =>
    let this := { this with hdr := h }
    if this.hdr.pkgLen ≤ 16 then ⟨.err .pkgLenTooShort, this, conn⟩
    else if this.hdr.pkgLen > 100 then ⟨.err .pkgLenTooLong, this, conn⟩
    else
      let buf : List Byte := List.replicate this.hdr.pkgLen.toNat 0
      match conn.Read buf with
      | none => ⟨.err .connError, this, conn⟩
      | some (buf, _, conn) =>
        let buffer := buf
        match readCStrFromByteBuffer buffer 16 with
        | none => ⟨.err .shortField, this, conn⟩
        | some (groupName, buffer) =>
          match readCStrFromByteBuffer buffer (this.hdr.pkgLen.toNat - 16) with
          | none => ⟨.err .shortField, this, conn⟩
          | some (remoteFileName, _) =>
            ⟨.ok, { this with fileId := groupName ++ [47] ++ remoteFileName }, conn⟩
  | (r, h, conn) => ⟨r, { this with hdr := h }, conn⟩

/-! ## Query file info task -/

/-- Modelled from the spec: the exported struct `FileInfo` is declared outside
`storage.go`; these are the fields `storage.go` sets. -/
structure FileInfo where
  CreateTimeStamp : Int
  CRC32 : Int
  SourceID : Int
  FileSize : Int
  SourceIPAddress : List Byte
  deriving DecidableEq, Repr

structure storageQueryFileInfoTask where
  hdr : header
  groupName : List Byte
  remoteFilename : List Byte
  fileInfo : Option FileInfo
  buffer : List Byte
  deriving DecidableEq, Repr

def storageQueryFileInfoTask.SendReq (P : ProtoCmd) (this : storageQueryFileInfoTask)
    (conn : Conn) : Step storageQueryFileInfoTask :=
  let this := { this with hdr := { this.hdr with cmd := P.STORAGE_PROTO_CMD_QUERY_FILE_INFO } }
  let this := { this with
    hdr := { this.hdr with pkgLen := wrapInt64 ((this.remoteFilename.length : Int) + 16) } }
  match this.hdr.SendHeader conn with
  | none => ⟨.err .connError, this, conn⟩
  | some conn =>
    let buffer : List Byte := []
    let byteGroupName := this.groupName
    match copyInto byteGroupName 0 (List.replicate 16 0) with
    | none => ⟨.indexOutOfRange, this, conn⟩
    | some bufferGroupName =>
      let buffer := buffer ++ bufferGroupName
      let buffer := buffer ++ this.remoteFilename
      match conn.Write buffer with
      | none => ⟨.err .connError, this, conn⟩
      | some conn => ⟨.ok, this, conn⟩

/-- The value a `binary.Read` leaves in its target: the decoded value, reduced to the
target's signed range by `wrap`, or the target's old value when the read failed. -/
def readInto (wrap : Int → Int) (old : Int) (r : Option Nat) : Int :=
  match r with
  | some v => wrap v
  | none => old

def storageQueryFileInfoTask.RecvRes (this : storageQueryFileInfoTask) (conn : Conn) :
    Step storageQueryFileInfoTask :=
  match this.hdr.RecvHeader conn with
  | (.ok, h, conn) =>
    let this := { this with hdr := h }
    if this.hdr.pkgLen < 0 then ⟨.makeSliceLen, this, conn⟩
    else
      let this := { this with buffer := List.replicate this.hdr.pkgLen.toNat 0 }
      let w := writeFromConnToBuffer conn this.buffer this.hdr.pkgLen
      let this := { this with buffer := w.2.1 }
      let conn := w.2.2
      if !w.1 then ⟨.err .connError, this, conn⟩
      else
        let buff := this.buffer
        let r1 := binaryRead 8 buff
        let fileSize := readInto wrapInt64 0 r1.1
        let r2 := binaryRead 4 r1.2
        let x := readInto wrapInt32 0 r2.1
        let r3 := binaryRead 4 r2.2
        let createTimeStamp := readInto wrapInt32 0 r3.1
        let r4 := binaryRead 4 r3.2
        let _x := readInto wrapInt32 x r4.1
        let r5 := binaryRead 4 r4.2
        let crc32 := readInto wrapInt32 0 r5.1
        match readCStrFromByteBuffer r5.2 (16 - 1) with
        | none => ⟨.err .shortField, this, conn⟩
        | some (ipAddr, _) =>
          let info : FileInfo :=
            { CreateTimeStamp := createTimeStamp,
              CRC32 := crc32,
              SourceID := 0,
              FileSize := fileSize,
              SourceIPAddress := ipAddr }
          ⟨.ok, { this with fileInfo := some info }, conn⟩
  | (r, h, conn) => ⟨r, { this with hdr := h }, conn⟩

/-! ## Reference decodings and layouts, written from the specification -/

/-- The bytes of an ASCII string literal. -/
def ascii (s : String) : List Byte := s.toList.map (fun c => Fin.ofNat c.toNat)

/-- Two's-complement reduction of an integer to the range of `int8`. -/
def wrapInt8 (x : Int) : Int := (x + 2 ^ 7) % 2 ^ 8 - 2 ^ 7

/-- A fixed-width field as the specification words it: "writes up to width bytes of
value, zero-pads remainder; if value exceeds width, silently truncates". -/
def fixedField (width : Nat) (value : List Byte) : List Byte :=
  value.take width ++ List.replicate (width - value.length) 0

/-- A conformant peer's decoding of the upload request fields, as the specification lays
them out: "storage-path-index (1 byte), file-size (8 bytes big-endian), extension (6-byte
fixed field)"; `none` unless there are exactly 15 bytes. -/
def peerDecodeUpload (fields : List Byte) : Option (Int × Int × List Byte) :=
  if fields.length = 15 then
    some (wrapInt8 (beNat (fields.take 1)),
      wrapInt64 (beNat ((fields.drop 1).take 8)),
      trimNulls ((fields.drop 9).take 6))
  else none

/-- The framing that the specification gives both to the delete request and to the
query-file-info request ("identical framing to Delete (group name + remote filename)"),
as steps on the connection once the header bytes `hb` are fixed: one write of the
header, the group name copied into its 16-byte field, one write of field and filename. -/
def groupNameRequest (hb groupName remoteFilename : List Byte) (conn : Conn) : Res × Conn :=
  match conn.Write hb with
  | none => (.err .connError, conn)
  | some conn1 =>
    match copyInto groupName 0 (List.replicate 16 0) with
    | none => (.indexOutOfRange, conn1)
    | some field =>
      match conn1.Write (field ++ remoteFilename) with
      | none => (.err .connError, conn1)
      | some conn2 => (.ok, conn2)

/-- The command table of the FastDFS storage protocol, used in the worked examples. -/
def fastdfsCmd : ProtoCmd :=
  { STORAGE_PROTO_CMD_UPLOAD_FILE := 11
    STORAGE_PROTO_CMD_DOWNLOAD_FILE := 14
    STORAGE_PROTO_CMD_DELETE_FILE := 12
    STORAGE_PROTO_CMD_UPLOAD_SLAVE_FILE := 21
    STORAGE_PROTO_CMD_QUERY_FILE_INFO := 22 }

/-- A fresh connection for a request: nothing pending, nothing written, writes succeed. -/
def freshConn : Conn := { pending := [], segs := [], written := [], writable := 8 }

/-- A connection on which the peer's bytes `bs` are pending, the coming reads limited by
`segs`. -/
def replyConn (bs : List Byte) (segs : List Nat) : Conn :=
  { pending := bs, segs := segs, written := [], writable := 0 }

end FdfsClient

namespace FdfsClient

/-! ## Lemmas on the codecs -/

theorem beBytes_length (w n : Nat) : (beBytes w n).length = w := by
  induction w with
  | zero => rfl
  | succ w ih => simp [beBytes, ih]

theorem foldl_beBytes (w n a : Nat) :
    (beBytes w n).foldl (fun acc (b : Byte) => acc * 256 + b.val) a = a * 256 ^ w + n % 256 ^ w := by
  induction w generalizing a with
  | zero => simp [beBytes, Nat.mod_one]
  | succ w ih =>
    simp only [beBytes, List.foldl_cons, ih]
    have hb : ((Fin.ofNat (n / 256 ^ w % 256) : Byte)).val = n / 256 ^ w % 256 := by
      show (n / 256 ^ w % 256) % 256 = n / 256 ^ w % 256
      exact Nat.mod_mod _ _
    rw [hb, Nat.mod_pow_succ]
    ring

theorem beNat_beBytes (w n : Nat) : beNat (beBytes w n) = n % 256 ^ w := by
  unfold beNat
  rw [foldl_beBytes]
  simp

theorem binaryWriteInt64_length (v : Int) : (binaryWriteInt64 v).length = 8 :=
  beBytes_length 8 _

theorem wrapInt64_of_range (v : Int) (h1 : -2 ^ 63 ≤ v) (h2 : v < 2 ^ 63) : wrapInt64 v = v := by
  unfold wrapInt64
  omega

theorem wrapInt64_beNat_binaryWriteInt64 (v : Int) (h1 : -2 ^ 63 ≤ v) (h2 : v < 2 ^ 63) :
    wrapInt64 (beNat (binaryWriteInt64 v)) = v := by
  unfold binaryWriteInt64
  rw [beNat_beBytes]
  unfold wrapInt64
  have h : ((v % 2 ^ 64).toNat % 256 ^ 8 : Nat) = (v % 2 ^ 64).toNat := by
    apply Nat.mod_eq_of_lt
    omega
  rw [h]
  omega

theorem copyInto_fits (src : List Byte) (i : Nat) (arr : List Byte)
    (h : i + src.length ≤ arr.length) :
    copyInto src i arr = some (arr.take i ++ src ++ arr.drop (i + src.length)) := by
  induction src generalizing i arr with
  | nil => simp [copyInto]
  | cons b rest ih =>
    simp only [List.length_cons] at h
    have hi : i < arr.length := by omega
    simp only [copyInto, hi, if_true]
    rw [ih (i + 1) (arr.set i b) (by simp; omega)]
    congr 1
    have hset : arr.set i b = arr.take i ++ b :: arr.drop (i + 1) := by
      rw [List.set_eq_take_append_cons_drop, if_pos hi]
    have hlen : (arr.take i).length = i := by simp; omega
    rw [hset]
    have e1 : List.take (i + 1) (arr.take i ++ b :: arr.drop (i + 1)) = arr.take i ++ [b] := by
      rw [List.take_append_eq_append_take, hlen]
      simp [List.take_of_length_le, hlen]
    have e2 : List.drop (i + 1 + rest.length) (arr.take i ++ b :: arr.drop (i + 1))
        = arr.drop (i + (rest.length + 1)) := by
      rw [List.drop_append_eq_append_drop, hlen]
      have : i + 1 + rest.length - i = rest.length + 1 := by omega
      rw [this, List.drop_of_length_le (by omega)]
      simp only [List.nil_append, List.drop_succ_cons, List.drop_drop, List.length_cons]
      congr 1
      omega
    rw [e1, e2]
    simp

theorem copyInto_overflow (src : List Byte) (i : Nat) (arr : List Byte)
    (hi : i ≤ arr.length) (h : arr.length < i + src.length) :
    copyInto src i arr = none := by
  induction src generalizing i arr with
  | nil => simp at h; omega
  | cons b rest ih =>
    simp only [List.length_cons] at h
    by_cases hlt : i < arr.length
    · simp only [copyInto, hlt, if_true]
      exact ih (i + 1) (arr.set i b) (by simp; omega) (by simp; omega)
    · simp [copyInto, hlt]

/-- The copy loop into a zeroed array of `n` bytes pads a source that fits with nulls. -/
theorem copyInto_zeroed (src : List Byte) (n : Nat) (h : src.length ≤ n) :
    copyInto src 0 (List.replicate n 0) = some (src ++ List.replicate (n - src.length) 0) := by
  rw [copyInto_fits src 0 _ (by simp; omega)]
  simp

theorem writeFixed_eq (n : Nat) (bs : List Byte) :
    writeFixed n bs = bs.take n ++ List.replicate (n - bs.length) 0 := by
  apply List.ext_getElem
  · simp [writeFixed]; omega
  · intro i h1 h2
    simp only [writeFixed, List.length_map, List.length_range] at h1
    simp only [writeFixed, List.getElem_map, List.getElem_range]
    by_cases hi : i < bs.length
    · have : ¬ (i ≥ bs.length) := by omega
      rw [if_neg this, List.getElem_append_left (by simp; omega)]
      simp [List.getD_eq_getElem?_getD, List.getElem?_eq_getElem hi]
    · have : i ≥ bs.length := by omega
      rw [if_pos this, List.getElem_append_right (by simp; omega)]
      simp

theorem range_map_getD (bs : List Byte) :
    (List.range bs.length).map (fun i => bs.getD i 0) = bs := by
  apply List.ext_getElem
  · simp
  · intro i h1 h2
    simp [List.getD_eq_getElem?_getD, List.getElem?_eq_getElem h2]

theorem dropWhile_eq_self_of_head {α : Type} (p : α → Bool) (l : List α)
    (h : ∀ b ∈ l, p b = false) : l.dropWhile p = l := by
  cases l with
  | nil => rfl
  | cons a t => simp [List.dropWhile, h a (by simp)]

theorem trimNulls_padded (l : List Byte) (k : Nat) (h0 : (0 : Byte) ∉ l) :
    trimNulls (l ++ List.replicate k 0) = l := by
  have h : ∀ b ∈ l, b ≠ 0 := fun b hb hb0 => h0 (hb0 ▸ hb)
  unfold trimNulls
  induction k with
  | zero =>
    simp only [List.replicate_zero, List.append_nil]
    rw [dropWhile_eq_self_of_head]
    · simp
    · intro b hb
      simpa using h b (by simpa using hb)
  | succ k ih =>
    rw [List.replicate_succ', ← List.append_assoc, List.reverse_append]
    simpa [List.dropWhile] using ih

/-! ## The upload request -/

theorem Conn.Write_ok (c : Conn) (bs : List Byte) (h : 0 < c.writable) :
    c.Write bs = some { c with written := c.written ++ bs, writable := c.writable - 1 } := by
  unfold Conn.Write
  rw [if_neg (by omega)]

theorem fixedField_length (n : Nat) (v : List Byte) : (fixedField n v).length = n := by
  simp [fixedField]; omega

theorem fixedField_of_le (n : Nat) (v : List Byte) (h : v.length ≤ n) :
    fixedField n v = v ++ List.replicate (n - v.length) 0 := by
  simp [fixedField, List.take_of_length_le h]

/-- C1 (amended): for an upload task with an in-memory source whose `fileSize` field
equals the length of its buffer, whose extension has at most 6 bytes, and on a connection
that accepts the three writes, `SendReq` returns no error, the payload length it puts in
the header equals the number of bytes written after the header, and those bytes are the
15 field bytes followed by every byte of the buffer. -/
theorem upload_pkgLen_eq_payload_written (P : ProtoCmd) (this : storageUploadTask) (conn : Conn)
    (hmem : this.fileInfo.file = none)
    (hsize : this.fileInfo.fileSize = this.fileInfo.buffer.length)
    (hext : this.fileInfo.fileExtName.length ≤ 6)
    (hfit : (this.fileInfo.buffer.length : Int) + 15 < 2 ^ 63)
    (hw : 3 ≤ conn.writable) :
    (storageUploadTask.SendReq P this conn).res = .ok ∧
    (storageUploadTask.SendReq P this conn).conn.written =
      conn.written ++ (storageUploadTask.SendReq P this conn).task.hdr.bytes ++
        ([toByte this.storagePathIndex] ++ binaryWriteInt64 this.fileInfo.fileSize ++
          fixedField 6 this.fileInfo.fileExtName) ++ this.fileInfo.buffer ∧
    ([toByte this.storagePathIndex] ++ binaryWriteInt64 this.fileInfo.fileSize ++
          fixedField 6 this.fileInfo.fileExtName).length = 15 ∧
    (storageUploadTask.SendReq P this conn).task.hdr.pkgLen =
      (15 + this.fileInfo.buffer.length : Nat) := by
  have hwrap : wrapInt64 (this.fileInfo.fileSize + 15) = (15 + this.fileInfo.buffer.length : Nat) := by
    rw [hsize, wrapInt64_of_range] <;> push_cast <;> omega
  simp only [storageUploadTask.SendReq, header.SendHeader, sendFile, hmem,
    copyInto_zeroed _ 6 hext, fixedField_of_le 6 _ hext]
  rw [Conn.Write_ok _ _ (by omega)]
  simp only []
  rw [Conn.Write_ok _ _ (by simp; omega)]
  simp only []
  rw [Conn.Write_ok _ _ (by simp; omega)]
  simp only [hwrap, binaryWriteInt64_length, List.length_append, List.length_cons,
    List.length_nil, List.length_replicate, List.nil_append, List.append_assoc, true_and]
  exact ⟨by omega, trivial⟩

/-- C1, witness: a 3-byte buffer with extension "txt" announces 18 bytes and 10 + 18
bytes reach the connection. -/
theorem upload_pkgLen_eq_payload_written_witness :
    (storageUploadTask.SendReq fastdfsCmd
        ⟨⟨0, 0, 0⟩, ⟨3, [1, 2, 3], none, ascii "txt"⟩, 0, []⟩ freshConn).res = .ok ∧
    (storageUploadTask.SendReq fastdfsCmd
        ⟨⟨0, 0, 0⟩, ⟨3, [1, 2, 3], none, ascii "txt"⟩, 0, []⟩ freshConn).task.hdr.pkgLen = 18 ∧
    (storageUploadTask.SendReq fastdfsCmd
        ⟨⟨0, 0, 0⟩, ⟨3, [1, 2, 3], none, ascii "txt"⟩, 0, []⟩ freshConn).conn.written.length
      = 10 + 18 := by
  have h := upload_pkgLen_eq_payload_written fastdfsCmd
    ⟨⟨0, 0, 0⟩, ⟨3, [1, 2, 3], none, ascii "txt"⟩, 0, []⟩ freshConn rfl rfl (by decide)
    (by decide) (by decide)
  refine ⟨h.1, h.2.2.2, ?_⟩
  rw [h.2.1]
  decide

/-- C1, counterexample: the header length is `fileInfo.fileSize + 15` whatever the buffer
holds (a task with `fileSize` 5 and a 3-byte buffer announces 20 bytes and writes 18
after the header), and with a 7-byte extension the call stops after the header,
announcing 18 bytes and writing none. -/
theorem upload_pkgLen_not_payload_written :
    ((storageUploadTask.SendReq fastdfsCmd
        ⟨⟨0, 0, 0⟩, ⟨5, [1, 2, 3], none, ascii "txt"⟩, 0, []⟩ freshConn).res = .ok ∧
      (storageUploadTask.SendReq fastdfsCmd
        ⟨⟨0, 0, 0⟩, ⟨5, [1, 2, 3], none, ascii "txt"⟩, 0, []⟩ freshConn).task.hdr.pkgLen = 20 ∧
      (storageUploadTask.SendReq fastdfsCmd
        ⟨⟨0, 0, 0⟩, ⟨5, [1, 2, 3], none, ascii "txt"⟩, 0, []⟩ freshConn).conn.written =
        [0, 0, 0, 0, 0, 0, 0, 20, 11, 0] ++ [0, 0, 0, 0, 0, 0, 0, 0, 5, 116, 120, 116, 0, 0, 0]
          ++ [1, 2, 3]) ∧
    ((storageUploadTask.SendReq fastdfsCmd
        ⟨⟨0, 0, 0⟩, ⟨3, [1, 2, 3], none, ascii "archive"⟩, 0, []⟩ freshConn).res
        = .indexOutOfRange ∧
      (storageUploadTask.SendReq fastdfsCmd
        ⟨⟨0, 0, 0⟩, ⟨3, [1, 2, 3], none, ascii "archive"⟩, 0, []⟩ freshConn).task.hdr.pkgLen = 18 ∧
      (storageUploadTask.SendReq fastdfsCmd
        ⟨⟨0, 0, 0⟩, ⟨3, [1, 2, 3], none, ascii "archive"⟩, 0, []⟩ freshConn).conn.written =
        [0, 0, 0, 0, 0, 0, 0, 18, 11, 0]) := by
  decide

theorem wrapInt8_toByte (x : Int) (h1 : -128 ≤ x) (h2 : x < 128) :
    wrapInt8 (beNat [toByte x]) = x := by
  have hv : ((toByte x : Byte)).val = (x % 256).toNat := by
    show (x % 256).toNat % 256 = (x % 256).toNat
    apply Nat.mod_eq_of_lt
    omega
  simp only [beNat, List.foldl_cons, List.foldl_nil, hv, wrapInt8]
  omega

theorem Conn.Write_written (c c1 : Conn) (bs : List Byte) (h : c.Write bs = some c1) :
    c1.written = c.written ++ bs := by
  unfold Conn.Write at h
  split at h
  · cases h
  · cases h; rfl

theorem sendFile_written (fi : fileInfo) (c c1 : Conn) (h : sendFile fi c = some c1) :
    ∃ body, c1.written = c.written ++ body := by
  unfold sendFile at h
  split at h
  · exact ⟨_, Conn.Write_written _ _ _ h⟩
  · exact ⟨_, Conn.Write_written _ _ _ h⟩

theorem header_bytes_length (h : header) : h.bytes.length = 10 := by
  simp [header.bytes, binaryWriteInt64_length]

theorem take_append_len (a b : List Byte) (n : Nat) (h : a.length = n) :
    (a ++ b).take n = a := by
  subst h; exact List.take_left _ _

theorem drop_append_len (a b : List Byte) (n : Nat) (h : a.length = n) :
    (a ++ b).drop n = b := by
  subst h; exact List.drop_left _ _

theorem take_len (a : List Byte) (n : Nat) (h : a.length = n) : a.take n = a := by
  subst h; exact List.take_length _

theorem drop_take_middle (a f tl : List Byte) (n m : Nat) (hn : a.length = n)
    (hm : f.length = m) : ((a ++ (f ++ tl)).drop n).take m = f := by
  subst hn; subst hm
  rw [List.drop_left, List.take_left]

/-- What an upload request has put on the wire once the header and the field block
are written: the header, the 15 field bytes, and whatever the body transfer added. -/
theorem upload_SendReq_wire (P : ProtoCmd) (this : storageUploadTask) (conn : Conn)
    (hext : this.fileInfo.fileExtName.length ≤ 6) (hw : 2 ≤ conn.writable) :
    ∃ tl, (storageUploadTask.SendReq P this conn).conn.written =
      (conn.written ++ (storageUploadTask.SendReq P this conn).task.hdr.bytes) ++
        (([toByte this.storagePathIndex] ++ binaryWriteInt64 this.fileInfo.fileSize ++
          fixedField 6 this.fileInfo.fileExtName) ++ tl) := by
  simp only [storageUploadTask.SendReq, header.SendHeader,
    copyInto_zeroed _ 6 hext, fixedField_of_le 6 _ hext]
  rw [Conn.Write_ok _ _ (by omega)]
  simp only []
  rw [Conn.Write_ok _ _ (by simp; omega)]
  simp only []
  split
  · exact ⟨[], by simp⟩
  · rename_i c1 hc1
    obtain ⟨body, hb⟩ := sendFile_written _ _ _ hc1
    exact ⟨body, by simp [hb]⟩

/-- C2: for every storagePathIndex in the `int8` range, fileSize in the `int64` range
and extension of at most 6 non-null bytes, the 15 bytes that `SendReq` writes after the
10-byte header decode, as 1 byte index, 8-byte big-endian size and 6-byte null-padded
string, to the same storagePathIndex, fileSize and extension. -/
theorem upload_fields_round_trip (P : ProtoCmd) (this : storageUploadTask) (conn : Conn)
    (hidx : -128 ≤ this.storagePathIndex ∧ this.storagePathIndex < 128)
    (hsize : -2 ^ 63 ≤ this.fileInfo.fileSize ∧ this.fileInfo.fileSize < 2 ^ 63)
    (hext : this.fileInfo.fileExtName.length ≤ 6)
    (hnull : (0 : Byte) ∉ this.fileInfo.fileExtName)
    (hw : 2 ≤ conn.writable) :
    peerDecodeUpload
        (((storageUploadTask.SendReq P this conn).conn.written.drop
          (conn.written.length + 10)).take 15) =
      some (this.storagePathIndex, this.fileInfo.fileSize, this.fileInfo.fileExtName) := by
  obtain ⟨tl, htl⟩ := upload_SendReq_wire P this conn hext hw
  rw [htl, drop_take_middle _ _ _ _ _ (by simp [header_bytes_length])
    (by simp [binaryWriteInt64_length, fixedField_length])]
  have h8 : (binaryWriteInt64 this.fileInfo.fileSize).length = 8 := binaryWriteInt64_length _
  have h6 : (fixedField 6 this.fileInfo.fileExtName).length = 6 := fixedField_length _ _
  unfold peerDecodeUpload
  rw [if_pos (by simp [h8, h6])]
  have e1 : ([toByte this.storagePathIndex] ++ binaryWriteInt64 this.fileInfo.fileSize ++
      fixedField 6 this.fileInfo.fileExtName).take 1 = [toByte this.storagePathIndex] := by
    simp
  have e2 : (([toByte this.storagePathIndex] ++ binaryWriteInt64 this.fileInfo.fileSize ++
      fixedField 6 this.fileInfo.fileExtName).drop 1).take 8
        = binaryWriteInt64 this.fileInfo.fileSize := by
    rw [List.append_assoc, drop_append_len [toByte this.storagePathIndex] _ 1 rfl, take_append_len _ _ 8 h8]
  have e3 : (([toByte this.storagePathIndex] ++ binaryWriteInt64 this.fileInfo.fileSize ++
      fixedField 6 this.fileInfo.fileExtName).drop 9).take 6
        = fixedField 6 this.fileInfo.fileExtName := by
    have : ([toByte this.storagePathIndex] ++ binaryWriteInt64 this.fileInfo.fileSize).length = 9 := by
      simp [h8]
    rw [drop_append_len _ _ 9 this, take_len _ 6 h6]
  rw [e1, e2, e3, wrapInt8_toByte _ hidx.1 hidx.2,
    wrapInt64_beNat_binaryWriteInt64 _ hsize.1 hsize.2, fixedField_of_le 6 _ hext,
    trimNulls_padded _ _ hnull]

/-- C2, witness: index -3, a 1024-byte buffer and extension "txt". -/
theorem upload_fields_round_trip_witness :
    peerDecodeUpload
        (((storageUploadTask.SendReq fastdfsCmd
            ⟨⟨0, 0, 0⟩, ⟨1024, List.replicate 1024 7, none, ascii "txt"⟩, -3, []⟩
            freshConn).conn.written.drop (freshConn.written.length + 10)).take 15) =
      some (-3, 1024, ascii "txt") :=
  upload_fields_round_trip fastdfsCmd
    ⟨⟨0, 0, 0⟩, ⟨1024, List.replicate 1024 7, none, ascii "txt"⟩, -3, []⟩ freshConn
    (by decide) (by norm_num) (by decide) (by decide) (by decide)

/-- C3, the code at the failing input: with the 10-byte extension "abcdefghij" the
upload `SendReq` ends in an index-out-of-range panic after the header and writes no
extension field, while the upload-slave `SendReq` on the same extension returns no
error and writes the 6-byte field "abcdef". -/
theorem upload_long_extension_panics :
    (storageUploadTask.SendReq fastdfsCmd
        ⟨⟨0, 0, 0⟩, ⟨4, [1, 2, 3, 4], none, ascii "abcdefghij"⟩, 0, []⟩ freshConn).res
      = .indexOutOfRange ∧
    (storageUploadTask.SendReq fastdfsCmd
        ⟨⟨0, 0, 0⟩, ⟨4, [1, 2, 3, 4], none, ascii "abcdefghij"⟩, 0, []⟩ freshConn).conn.written
      = [0, 0, 0, 0, 0, 0, 0, 19, 11, 0] ∧
    (storageUploadSlaveTask.SendReq fastdfsCmd
        ⟨⟨0, 0, 0⟩, ⟨4, [1, 2, 3, 4], none, []⟩, 0, [], ascii "m", [], ascii "abcdefghij"⟩
        freshConn).res = .ok ∧
    (((storageUploadSlaveTask.SendReq fastdfsCmd
        ⟨⟨0, 0, 0⟩, ⟨4, [1, 2, 3, 4], none, []⟩, 0, [], ascii "m", [], ascii "abcdefghij"⟩
        freshConn).conn.written.drop 42).take 6) = ascii "abcdef" := by
  decide

/-! ## Reading from the connection -/

theorem Conn.readCount_le (c : Conn) (n : Nat) :
    c.readCount n ≤ n ∧ c.readCount n ≤ c.pending.length := by
  unfold Conn.readCount
  split <;> omega

theorem Conn.readCount_pos (c : Conn) (n : Nat) (hn : 0 < n) (hp : c.pending ≠ []) :
    0 < c.readCount n := by
  have : 0 < c.pending.length := List.length_pos.mpr hp
  unfold Conn.readCount
  split <;> omega

theorem Conn.readCount_whole (c : Conn) (n : Nat) (hlen : n ≤ c.pending.length)
    (hseg : ∀ s ∈ c.segs.head?, n ≤ s) : c.readCount n = n := by
  unfold Conn.readCount
  split
  · omega
  · rename_i s t hs
    have : n ≤ s := hseg s (by simp [hs])
    omega

/-- A read into a non-empty buffer with bytes pending returns the count of `readCount`. -/
theorem Conn.Read_some (c : Conn) (buf : List Byte) (hn : 0 < buf.length)
    (hp : c.pending ≠ []) :
    c.Read buf = some (c.pending.take (c.readCount buf.length) ++
        buf.drop (c.readCount buf.length), c.readCount buf.length,
      { c with pending := c.pending.drop (c.readCount buf.length), segs := c.segs.tail }) := by
  unfold Conn.Read
  rw [if_neg (by omega), if_neg hp]

/-- A read that the stream can satisfy in full returns exactly the bytes asked for. -/
theorem Conn.Read_whole (c : Conn) (buf : List Byte) (hn : 0 < buf.length)
    (hlen : buf.length ≤ c.pending.length) (hseg : ∀ s ∈ c.segs.head?, buf.length ≤ s) :
    c.Read buf = some (c.pending.take buf.length, buf.length,
      { c with pending := c.pending.drop buf.length, segs := c.segs.tail }) := by
  have hp : c.pending ≠ [] := by
    intro h
    have : c.pending.length = 0 := by rw [h]; rfl
    omega
  rw [Conn.Read_some c buf hn hp, Conn.readCount_whole c _ hlen hseg]
  simp

theorem header_bytes_take8 (h : header) (rest : List Byte) :
    (h.bytes ++ rest).take 8 = binaryWriteInt64 h.pkgLen := by
  unfold header.bytes
  rw [List.append_assoc, take_append_len _ _ 8 (binaryWriteInt64_length _)]

theorem header_bytes_getD8 (h : header) (rest : List Byte) :
    (h.bytes ++ rest).getD 8 0 = h.cmd := by
  unfold header.bytes
  rw [List.append_assoc, List.getD_eq_getElem?_getD,
    List.getElem?_append_right (by simp [binaryWriteInt64_length])]
  simp [binaryWriteInt64_length]

theorem header_bytes_getD9 (h : header) (rest : List Byte) :
    (h.bytes ++ rest).getD 9 0 = h.status := by
  unfold header.bytes
  rw [List.append_assoc, List.getD_eq_getElem?_getD,
    List.getElem?_append_right (by simp [binaryWriteInt64_length])]
  simp [binaryWriteInt64_length]

/-- Receiving a header that arrives whole decodes the three fields the peer encoded. -/
theorem RecvHeader_of_bytes (h0 h : header) (conn : Conn) (payload : List Byte)
    (hpend : conn.pending = h.bytes ++ payload)
    (hseg : ∀ s ∈ conn.segs.head?, 10 ≤ s)
    (hrange : -2 ^ 63 ≤ h.pkgLen ∧ h.pkgLen < 2 ^ 63) :
    h0.RecvHeader conn =
      (if h.status ≠ 0 then Res.err (.badStatus h.status) else Res.ok, h,
        { conn with pending := payload, segs := conn.segs.tail }) := by
  have hlen : (List.replicate 10 (0 : Byte)).length ≤ conn.pending.length := by
    rw [hpend]; simp [header_bytes_length]
  unfold header.RecvHeader
  rw [Conn.Read_whole conn _ (by simp) hlen (by simpa using hseg)]
  simp only [List.length_replicate, lt_self_iff_false, if_false]
  have e10 : conn.pending.take 10 = h.bytes := by
    rw [hpend, take_append_len _ _ 10 (header_bytes_length h)]
  have ed : conn.pending.drop 10 = payload := by
    rw [hpend, drop_append_len _ _ 10 (header_bytes_length h)]
  have hb : h.bytes = h.bytes ++ [] := by simp
  have e8 : (h.bytes).take 8 = binaryWriteInt64 h.pkgLen := by
    rw [hb]; exact header_bytes_take8 h []
  have ec : (h.bytes).getD 8 0 = h.cmd := by rw [hb]; exact header_bytes_getD8 h []
  have es : (h.bytes).getD 9 0 = h.status := by rw [hb]; exact header_bytes_getD9 h []
  rw [e10, ed, e8, ec, es, wrapInt64_beNat_binaryWriteInt64 _ hrange.1 hrange.2]
  split <;> rfl

/-! ## The upload response -/

theorem readCStr_ok (buffer : List Byte) (size : Nat) (h : size ≤ buffer.length) :
    readCStrFromByteBuffer buffer size =
      some (trimNulls (buffer.take size), buffer.drop size) := by
  unfold readCStrFromByteBuffer
  rw [if_neg (by omega)]

/-- C4: for a response header with status 0 that arrives whole, the upload `RecvRes`
fails when the payload length is at most 16 and when it exceeds 100, and returns no
error for every payload length from 17 to 100 once the connection delivers the payload
bytes. -/
theorem upload_RecvRes_length_bounds (this : storageUploadTask) (conn : Conn) (h : header)
    (payload : List Byte)
    (hpend : conn.pending = h.bytes ++ payload)
    (hseg : ∀ s ∈ conn.segs.head?, 10 ≤ s)
    (hst : h.status = 0)
    (hrange : -2 ^ 63 ≤ h.pkgLen ∧ h.pkgLen < 2 ^ 63) :
    (h.pkgLen ≤ 16 → (this.RecvRes conn).res = .err .pkgLenTooShort) ∧
    (100 < h.pkgLen → (this.RecvRes conn).res = .err .pkgLenTooLong) ∧
    (17 ≤ h.pkgLen → h.pkgLen ≤ 100 → h.pkgLen ≤ payload.length →
      (this.RecvRes conn).res = .ok) := by
  have hh := RecvHeader_of_bytes this.hdr h conn payload hpend hseg hrange
  rw [hst] at hh
  simp only [ne_eq, not_true_eq_false, if_false] at hh
  refine ⟨?_, ?_, ?_⟩
  · intro hle
    unfold storageUploadTask.RecvRes
    rw [hh]
    simp only [hle, if_true]
  · intro hgt
    unfold storageUploadTask.RecvRes
    rw [hh]
    simp only []
    rw [if_neg (by omega), if_pos (by omega)]
  · intro h17 h100 hpl
    unfold storageUploadTask.RecvRes
    rw [hh]
    simp only []
    rw [if_neg (by omega), if_neg (by omega)]
    have hn : 0 < (List.replicate h.pkgLen.toNat (0 : Byte)).length := by simp; omega
    have hp : payload ≠ [] := by
      intro he; rw [he] at hpl; simp at hpl; omega
    rw [Conn.Read_some _ _ hn hp]
    simp only []
    have hk := Conn.readCount_le { conn with pending := payload, segs := conn.segs.tail }
      (List.replicate h.pkgLen.toNat (0 : Byte)).length
    simp only [List.length_replicate] at hk ⊢
    generalize Conn.readCount { conn with pending := payload, segs := conn.segs.tail }
      h.pkgLen.toNat = k at hk ⊢
    have hbuf : (List.take k payload ++ List.drop k (List.replicate h.pkgLen.toNat (0 : Byte))).length
        = h.pkgLen.toNat := by
      simp; omega
    rw [readCStr_ok _ 16 (by omega)]
    simp only []
    rw [readCStr_ok _ (h.pkgLen.toNat - 16) (by simp only [List.length_drop]; omega)]


/-- C4, witness: the boundary lengths 16, 17, 100 and 101 on a status-0 header followed
by 100 payload bytes: 16 and 101 are rejected, 17 and 100 are accepted. -/
theorem upload_RecvRes_length_bounds_witness :
    ((⟨⟨0, 0, 0⟩, ⟨0, [], none, []⟩, 0, []⟩ : storageUploadTask).RecvRes
      (replyConn (header.bytes ⟨16, 11, 0⟩ ++ List.replicate 100 65) [])).res
        = .err .pkgLenTooShort ∧
    ((⟨⟨0, 0, 0⟩, ⟨0, [], none, []⟩, 0, []⟩ : storageUploadTask).RecvRes
      (replyConn (header.bytes ⟨17, 11, 0⟩ ++ List.replicate 100 65) [])).res = .ok ∧
    ((⟨⟨0, 0, 0⟩, ⟨0, [], none, []⟩, 0, []⟩ : storageUploadTask).RecvRes
      (replyConn (header.bytes ⟨100, 11, 0⟩ ++ List.replicate 100 65) [])).res = .ok ∧
    ((⟨⟨0, 0, 0⟩, ⟨0, [], none, []⟩, 0, []⟩ : storageUploadTask).RecvRes
      (replyConn (header.bytes ⟨101, 11, 0⟩ ++ List.replicate 100 65) [])).res
        = .err .pkgLenTooLong :=
  ⟨(upload_RecvRes_length_bounds _ _ ⟨16, 11, 0⟩ (List.replicate 100 65) rfl
      (by decide) rfl (by decide)).1 (by decide),
   (upload_RecvRes_length_bounds _ _ ⟨17, 11, 0⟩ (List.replicate 100 65) rfl
      (by decide) rfl (by decide)).2.2 (by decide) (by decide) (by decide),
   (upload_RecvRes_length_bounds _ _ ⟨100, 11, 0⟩ (List.replicate 100 65) rfl
      (by decide) rfl (by decide)).2.2 (by decide) (by decide) (by decide),
   (upload_RecvRes_length_bounds _ _ ⟨101, 11, 0⟩ (List.replicate 100 65) rfl
      (by decide) rfl (by decide)).2.1 (by decide)⟩

/-- When the header and the payload each arrive in one read: for an upload response
whose payload is a group name padded with nulls to 16 bytes followed by a non-empty
remote filename, 17 to 100 bytes in all (the names hold no null byte), `RecvRes` returns
no error and sets fileId to the group name, "/", and the remote filename. -/
theorem upload_RecvRes_fileId (this : storageUploadTask) (conn : Conn) (cmd : Byte)
    (groupName remoteFilename rest : List Byte)
    (hg : groupName.length ≤ 16) (hg0 : (0 : Byte) ∉ groupName)
    (hr : remoteFilename ≠ []) (hr0 : (0 : Byte) ∉ remoteFilename)
    (hlen : 16 + remoteFilename.length ≤ 100)
    (hpend : conn.pending =
      header.bytes ⟨(16 + remoteFilename.length : Nat), cmd, 0⟩ ++
        (fixedField 16 groupName ++ remoteFilename ++ rest))
    (hseg : ∀ s ∈ conn.segs, 100 ≤ s) :
    (this.RecvRes conn).res = .ok ∧
    (this.RecvRes conn).task.fileId = groupName ++ ascii "/" ++ remoteFilename := by
  have hrl : 0 < remoteFilename.length := List.length_pos.mpr hr
  have hseg0 : ∀ s ∈ conn.segs.head?, 10 ≤ s := by
    intro s hs
    have := hseg s (List.mem_of_mem_head? hs)
    omega
  have hseg1 : ∀ s ∈ conn.segs.tail.head?, 16 + remoteFilename.length ≤ s := by
    intro s hs
    have := hseg s (List.mem_of_mem_tail (List.mem_of_mem_head? hs))
    omega
  have hh := RecvHeader_of_bytes this.hdr ⟨(16 + remoteFilename.length : Nat), cmd, 0⟩ conn _
    hpend hseg0 (by constructor <;> simp only [] <;> omega)
  simp only [ne_eq, not_true_eq_false, if_false] at hh
  have hf : (fixedField 16 groupName).length = 16 := fixedField_length _ _
  unfold storageUploadTask.RecvRes
  rw [hh]
  simp only []
  rw [if_neg (by omega), if_neg (by omega)]
  simp only [Int.toNat_ofNat]
  rw [Conn.Read_whole _ _ (by simp) (by simp [hf]) (by simpa using hseg1)]
  simp only [List.length_replicate]
  have hpay : (fixedField 16 groupName ++ remoteFilename ++ rest).take
      (16 + remoteFilename.length) = fixedField 16 groupName ++ remoteFilename :=
    take_append_len _ _ _ (by simp [hf])
  rw [hpay, readCStr_ok _ 16 (by simp [hf])]
  simp only []
  rw [readCStr_ok _ _ (by simp [hf])]
  simp only []
  rw [take_append_len _ _ 16 hf, drop_append_len _ _ 16 hf,
    take_len _ _ (by omega), fixedField_of_le _ _ hg, trimNulls_padded _ _ hg0]
  have : trimNulls remoteFilename = remoteFilename := by
    have := trimNulls_padded remoteFilename 0 hr0
    simpa using this
  rw [this]
  exact ⟨trivial, rfl⟩

/-- On whole reads, group "group1" and remote name "M00/00/00/test.txt" give the fileId
"group1/M00/00/00/test.txt". -/
theorem upload_RecvRes_fileId_witness :
    ((⟨⟨0, 0, 0⟩, ⟨1024, List.replicate 1024 7, none, ascii "txt"⟩, 0, []⟩ :
        storageUploadTask).RecvRes
      (replyConn (header.bytes ⟨(16 + (ascii "M00/00/00/test.txt").length : Nat), 11, 0⟩ ++
        (fixedField 16 (ascii "group1") ++ ascii "M00/00/00/test.txt" ++ [])) [])).task.fileId
      = ascii "group1/M00/00/00/test.txt" :=
  (upload_RecvRes_fileId _ _ 11 (ascii "group1") (ascii "M00/00/00/test.txt") [] (by decide)
    (by decide) (by decide) (by decide) (by decide) rfl (by decide)).2

/-- C5, the code at the failing input: the peer sends a status-0 header announcing 34
bytes and the payload "group1", ten nulls, "M00/00/00/test.txt"; the payload read
returns its first 20 bytes only. `RecvRes` returns no error and sets fileId to
"group1/M00/", not to "group1/M00/00/00/test.txt"; 14 payload bytes stay unread. -/
theorem upload_RecvRes_fileId_cut_by_short_read :
    ((⟨⟨0, 0, 0⟩, ⟨0, [], none, []⟩, 0, []⟩ : storageUploadTask).RecvRes
      (replyConn (header.bytes ⟨34, 11, 0⟩ ++
        (fixedField 16 (ascii "group1") ++ ascii "M00/00/00/test.txt")) [10, 20])).res = .ok ∧
    ((⟨⟨0, 0, 0⟩, ⟨0, [], none, []⟩, 0, []⟩ : storageUploadTask).RecvRes
      (replyConn (header.bytes ⟨34, 11, 0⟩ ++
        (fixedField 16 (ascii "group1") ++ ascii "M00/00/00/test.txt")) [10, 20])).task.fileId
      = ascii "group1/M00/" ∧
    ((⟨⟨0, 0, 0⟩, ⟨0, [], none, []⟩, 0, []⟩ : storageUploadTask).RecvRes
      (replyConn (header.bytes ⟨34, 11, 0⟩ ++
        (fixedField 16 (ascii "group1") ++ ascii "M00/00/00/test.txt")) [10, 20])).task.fileId
      ≠ ascii "group1" ++ ascii "/" ++ ascii "M00/00/00/test.txt" ∧
    ((⟨⟨0, 0, 0⟩, ⟨0, [], none, []⟩, 0, []⟩ : storageUploadTask).RecvRes
      (replyConn (header.bytes ⟨34, 11, 0⟩ ++
        (fixedField 16 (ascii "group1") ++ ascii "M00/00/00/test.txt")) [10, 20])).conn.pending
      = ascii "00/00/test.txt" := by
  decide

/-- C6, the code at the failing input: the peer sends a status-0 header announcing 34
bytes and the 34 payload bytes "group1", ten nulls, "M00/00/00/test.txt"; the payload
read returns its first 5 bytes only. `RecvRes` returns no error with fileId "group/",
and 29 payload bytes are left unread on the connection. -/
theorem upload_RecvRes_short_read :
    ((⟨⟨0, 0, 0⟩, ⟨0, [], none, []⟩, 0, []⟩ : storageUploadTask).RecvRes
      (replyConn (header.bytes ⟨34, 11, 0⟩ ++
        (fixedField 16 (ascii "group1") ++ ascii "M00/00/00/test.txt")) [10, 5])).res = .ok ∧
    ((⟨⟨0, 0, 0⟩, ⟨0, [], none, []⟩, 0, []⟩ : storageUploadTask).RecvRes
      (replyConn (header.bytes ⟨34, 11, 0⟩ ++
        (fixedField 16 (ascii "group1") ++ ascii "M00/00/00/test.txt")) [10, 5])).task.fileId
      = ascii "group/" ∧
    ((⟨⟨0, 0, 0⟩, ⟨0, [], none, []⟩, 0, []⟩ : storageUploadTask).RecvRes
      (replyConn (header.bytes ⟨34, 11, 0⟩ ++
        (fixedField 16 (ascii "group1") ++ ascii "M00/00/00/test.txt")) [10, 5])).conn.pending
      = (fixedField 16 (ascii "group1") ++ ascii "M00/00/00/test.txt").drop 5 := by
  decide

/-! ## The download, delete and query requests -/

/-- C7: for a download task whose group name has at most 16 bytes (the filename length
plus 32 within `int64`, the two writes accepted), `SendReq` returns no error, sets the
header payload length to len(remoteFilename) + 32, and writes after the header exactly
that many bytes: offset and downloadBytes as 8 big-endian bytes each, the group name
padded with nulls to 16 bytes, then the remote filename bytes. -/
theorem download_SendReq_layout (P : ProtoCmd) (this : storageDownloadTask) (conn : Conn)
    (hg : this.groupName.length ≤ 16)
    (hfit : (this.remoteFilename.length : Int) + 32 < 2 ^ 63)
    (hw : 2 ≤ conn.writable) :
    (this.SendReq P conn).res = .ok ∧
    (this.SendReq P conn).task.hdr.pkgLen = (this.remoteFilename.length + 32 : Nat) ∧
    (this.SendReq P conn).conn.written =
      conn.written ++ (this.SendReq P conn).task.hdr.bytes ++
        (binaryWriteInt64 this.offset ++ binaryWriteInt64 this.downloadBytes ++
          (this.groupName ++ List.replicate (16 - this.groupName.length) 0) ++
          this.remoteFilename) ∧
    (binaryWriteInt64 this.offset ++ binaryWriteInt64 this.downloadBytes ++
          (this.groupName ++ List.replicate (16 - this.groupName.length) 0) ++
          this.remoteFilename).length = this.remoteFilename.length + 32 := by
  have hwrap : wrapInt64 ((this.remoteFilename.length : Int) + 32)
      = (this.remoteFilename.length + 32 : Nat) := by
    rw [wrapInt64_of_range] <;> push_cast <;> omega
  simp only [storageDownloadTask.SendReq, header.SendHeader, copyInto_zeroed _ 16 hg]
  rw [Conn.Write_ok _ _ (by omega)]
  simp only []
  rw [Conn.Write_ok _ _ (by simp; omega)]
  simp only [hwrap, binaryWriteInt64_length, List.length_append,
    List.length_replicate, List.nil_append, List.append_assoc, true_and]
  omega

/-- C7, witness: group "group1", remote name "M00/00/00/test.txt", offset 0, whole file. -/
theorem download_SendReq_layout_witness :
    ((⟨⟨0, 0, 0⟩, ascii "group1", ascii "M00/00/00/test.txt", 0, 0, [], none⟩ :
        storageDownloadTask).SendReq fastdfsCmd freshConn).res = .ok ∧
    ((⟨⟨0, 0, 0⟩, ascii "group1", ascii "M00/00/00/test.txt", 0, 0, [], none⟩ :
        storageDownloadTask).SendReq fastdfsCmd freshConn).task.hdr.pkgLen = 50 :=
  ⟨(download_SendReq_layout fastdfsCmd _ freshConn (by decide) (by decide) (by decide)).1,
   (download_SendReq_layout fastdfsCmd _ freshConn (by decide) (by decide) (by decide)).2.1⟩

/-- C8, the code at the failing input: with the 17-byte group name "group000000000017"
the download, delete and query-file-info `SendReq` each end in an index-out-of-range
panic after the header (which announces the payload) and write no payload byte. -/
theorem long_group_name_panics :
    (((⟨⟨0, 0, 0⟩, ascii "group000000000017", ascii "M00/a", 0, 0, [], none⟩ :
        storageDownloadTask).SendReq fastdfsCmd freshConn).res = .indexOutOfRange ∧
      ((⟨⟨0, 0, 0⟩, ascii "group000000000017", ascii "M00/a", 0, 0, [], none⟩ :
        storageDownloadTask).SendReq fastdfsCmd freshConn).conn.written
          = [0, 0, 0, 0, 0, 0, 0, 37, 14, 0]) ∧
    (((⟨⟨0, 0, 0⟩, ascii "group000000000017", ascii "M00/a"⟩ :
        storageDeleteTask).SendReq fastdfsCmd freshConn).res = .indexOutOfRange ∧
      ((⟨⟨0, 0, 0⟩, ascii "group000000000017", ascii "M00/a"⟩ :
        storageDeleteTask).SendReq fastdfsCmd freshConn).conn.written
          = [0, 0, 0, 0, 0, 0, 0, 21, 12, 0]) ∧
    (((⟨⟨0, 0, 0⟩, ascii "group000000000017", ascii "M00/a", none, []⟩ :
        storageQueryFileInfoTask).SendReq fastdfsCmd freshConn).res = .indexOutOfRange ∧
      ((⟨⟨0, 0, 0⟩, ascii "group000000000017", ascii "M00/a", none, []⟩ :
        storageQueryFileInfoTask).SendReq fastdfsCmd freshConn).conn.written
          = [0, 0, 0, 0, 0, 0, 0, 21, 22, 0]) := by
  decide

/-! ## The upload-slave request -/

theorem sendFile_ok (fi : fileInfo) (c : Conn) (h : 0 < c.writable) :
    sendFile fi c = some { c with written := c.written ++ fi.file.getD fi.buffer,
                                  writable := c.writable - 1 } := by
  unfold sendFile
  cases fi.file <;> simp [Conn.Write_ok _ _ h]

/-- C9: for every upload-slave task, with prefix name and extension of any length (the
length sums within `int64`, the three writes accepted), `SendReq` returns no error, sets
the header payload length to fileSize + 38 + len(masterFilename), and writes after the
header exactly 38 + len(masterFilename) bytes before the file body: the master-filename
length and fileSize as 8 big-endian bytes each, the prefix name truncated or null-padded
to 16 bytes, the extension truncated or null-padded to 6 bytes, then the master filename
bytes. -/
theorem uploadSlave_SendReq_layout (P : ProtoCmd) (this : storageUploadSlaveTask)
    (conn : Conn)
    (hfit : -2 ^ 63 ≤ this.fileInfo.fileSize + 38 + this.masterFilename.length ∧
      this.fileInfo.fileSize + 38 + this.masterFilename.length < 2 ^ 63 ∧
      (38 : Int) + this.masterFilename.length < 2 ^ 63)
    (hw : 3 ≤ conn.writable) :
    (this.SendReq P conn).res = .ok ∧
    (this.SendReq P conn).task.hdr.pkgLen =
      this.fileInfo.fileSize + 38 + this.masterFilename.length ∧
    (this.SendReq P conn).conn.written =
      conn.written ++ (this.SendReq P conn).task.hdr.bytes ++
        (binaryWriteInt64 this.masterFilename.length ++
          binaryWriteInt64 this.fileInfo.fileSize ++
          fixedField 16 this.prefixName ++ fixedField 6 this.fileExtName ++
          this.masterFilename) ++
        this.fileInfo.file.getD this.fileInfo.buffer ∧
    (binaryWriteInt64 this.masterFilename.length ++
          binaryWriteInt64 this.fileInfo.fileSize ++
          fixedField 16 this.prefixName ++ fixedField 6 this.fileExtName ++
          this.masterFilename).length = 38 + this.masterFilename.length := by
  have hwrap1 : wrapInt64 ((38 : Int) + this.masterFilename.length)
      = 38 + this.masterFilename.length := by
    rw [wrapInt64_of_range] <;> omega
  have hwrap : wrapInt64 (this.fileInfo.fileSize + wrapInt64 ((38 : Int) + this.masterFilename.length))
      = this.fileInfo.fileSize + 38 + this.masterFilename.length := by
    rw [hwrap1, wrapInt64_of_range] <;> omega
  simp only [storageUploadSlaveTask.SendReq, header.SendHeader, Int.toNat_ofNat,
    range_map_getD, writeFixed_eq]
  rw [Conn.Write_ok _ _ (by omega)]
  simp only []
  rw [Conn.Write_ok _ _ (by simp; omega)]
  simp only []
  rw [sendFile_ok _ _ (by simp; omega)]
  simp only [hwrap, fixedField, binaryWriteInt64_length, List.length_append,
    List.length_replicate, List.length_take, List.nil_append, List.append_assoc, true_and]
  omega

/-- C9, witness: a 3-byte buffer, master "M00/a.jpg", a 24-byte prefix name and a 10-byte
extension: both are cut to their field widths. -/
theorem uploadSlave_SendReq_layout_witness :
    ((⟨⟨0, 0, 0⟩, ⟨3, [1, 2, 3], none, []⟩, 0, [], ascii "M00/a.jpg",
        ascii "prefixprefixprefixprefix", ascii "abcdefghij"⟩ :
        storageUploadSlaveTask).SendReq fastdfsCmd freshConn).res = .ok ∧
    ((⟨⟨0, 0, 0⟩, ⟨3, [1, 2, 3], none, []⟩, 0, [], ascii "M00/a.jpg",
        ascii "prefixprefixprefixprefix", ascii "abcdefghij"⟩ :
        storageUploadSlaveTask).SendReq fastdfsCmd freshConn).task.hdr.pkgLen = 50 :=
  ⟨(uploadSlave_SendReq_layout fastdfsCmd _ freshConn (by decide) (by decide)).1,
   (uploadSlave_SendReq_layout fastdfsCmd _ freshConn (by decide) (by decide)).2.1⟩

/-! ## The query-file-info response -/

theorem binaryRead_ok (w : Nat) (buf : List Byte) (h : w ≤ buf.length) :
    binaryRead w buf = (some (beNat (buf.take w)), buf.drop w) := by
  unfold binaryRead
  rw [if_neg (by omega)]

/-- The retry loop delivers exactly the `need` next pending bytes, however the stream
cuts them into reads, when that many bytes are pending. -/
theorem readFull_deliver (fuel : Nat) (conn : Conn) (need : Nat) (hf : need ≤ fuel)
    (hp : need ≤ conn.pending.length) :
    ∃ segs1, readFull fuel conn need =
      (true, conn.pending.take need,
        { conn with pending := conn.pending.drop need, segs := segs1 }) := by
  induction fuel generalizing conn need with
  | zero =>
    have h0 : need = 0 := by omega
    subst h0
    exact ⟨conn.segs, by simp [readFull]⟩
  | succ fuel ih =>
    by_cases h0 : need = 0
    · subst h0
      exact ⟨conn.segs, by simp [readFull]⟩
    · have hne : conn.pending ≠ [] := by
        intro h
        have : conn.pending.length = 0 := by rw [h]; rfl
        omega
      have hk := Conn.readCount_le conn need
      have hk1 := Conn.readCount_pos conn need (by omega) hne
      obtain ⟨segs1, h1⟩ := ih
        { conn with pending := conn.pending.drop (conn.readCount need), segs := conn.segs.tail }
        (need - conn.readCount need) (by omega) (by simp only [List.length_drop]; omega)
      refine ⟨segs1, ?_⟩
      unfold readFull
      rw [if_neg h0, Conn.Read_some conn _ (by simp; omega) hne]
      simp only [List.length_replicate]
      rw [h1]
      simp only []
      generalize conn.readCount need = k at hk hk1
      have e1 : (List.take k conn.pending ++ List.drop k (List.replicate need (0 : Byte))).take k
          = conn.pending.take k :=
        take_append_len _ _ k (by simp; omega)
      have e2 : conn.pending.take k ++ (conn.pending.drop k).take (need - k)
          = conn.pending.take need := by
        rw [← List.take_add]
        congr 1
        omega
      have e3 : (conn.pending.drop k).drop (need - k) = conn.pending.drop need := by
        rw [List.drop_drop]
        congr 1
        omega
      rw [e1, e2, e3]

theorem writeFromConnToBuffer_deliver (conn : Conn) (n : Nat)
    (hp : n ≤ conn.pending.length) :
    ∃ segs1, writeFromConnToBuffer conn (List.replicate n 0) (n : Int) =
      (true, conn.pending.take n,
        { conn with pending := conn.pending.drop n, segs := segs1 }) := by
  obtain ⟨segs1, h⟩ := readFull_deliver n conn n (le_refl _) hp
  refine ⟨segs1, ?_⟩
  unfold writeFromConnToBuffer
  simp only [Int.toNat_ofNat, h]
  have : (List.replicate n (0 : Byte)).drop (conn.pending.take n).length = [] := by
    apply List.drop_of_length_le
    simp; omega
  rw [this, List.append_nil]

theorem readInto_some (wrap : Int → Int) (old : Int) (v : Nat) :
    readInto wrap old (some v) = wrap v := rfl

/-- The fields the query-file-info `RecvRes` decodes from a delivered payload of at least
39 bytes, by byte offset. -/
theorem queryFileInfo_RecvRes_fields (this : storageQueryFileInfoTask) (conn : Conn)
    (h : header) (payload rest : List Byte)
    (hpend : conn.pending = h.bytes ++ (payload ++ rest))
    (hseg : ∀ s ∈ conn.segs.head?, 10 ≤ s)
    (hst : h.status = 0)
    (hlen : h.pkgLen = payload.length)
    (hfit : (payload.length : Int) < 2 ^ 63)
    (h39 : 39 ≤ payload.length) :
    (this.RecvRes conn).res = .ok ∧
    (this.RecvRes conn).task.fileInfo = some
      { FileSize := wrapInt64 (beNat (payload.take 8)),
        CreateTimeStamp := wrapInt32 (beNat ((payload.drop 12).take 4)),
        CRC32 := wrapInt32 (beNat ((payload.drop 20).take 4)),
        SourceID := 0,
        SourceIPAddress := trimNulls ((payload.drop 24).take 15) } := by
  have hh := RecvHeader_of_bytes this.hdr h conn _ hpend hseg (by rw [hlen]; omega)
  rw [hst] at hh
  simp only [ne_eq, not_true_eq_false, if_false] at hh
  obtain ⟨segs1, hw⟩ := writeFromConnToBuffer_deliver
    { conn with pending := payload ++ rest, segs := conn.segs.tail } payload.length
    (by simp)
  have htake : (payload ++ rest).take payload.length = payload := List.take_left _ _
  simp only [htake] at hw
  unfold storageQueryFileInfoTask.RecvRes
  rw [hh]
  dsimp only
  rw [if_neg (by rw [hlen]; omega), hlen, Int.toNat_ofNat, hw]
  dsimp only
  rw [if_neg (by decide), binaryRead_ok 8 payload (by omega)]
  dsimp only
  rw [binaryRead_ok 4 (payload.drop 8) (by simp only [List.length_drop]; omega)]
  dsimp only
  rw [List.drop_drop, binaryRead_ok 4 (payload.drop (4 + 8))
    (by simp only [List.length_drop]; omega)]
  dsimp only
  rw [List.drop_drop, binaryRead_ok 4 (payload.drop (4 + (4 + 8)))
    (by simp only [List.length_drop]; omega)]
  dsimp only
  rw [List.drop_drop, binaryRead_ok 4 (payload.drop (4 + (4 + (4 + 8))))
    (by simp only [List.length_drop]; omega)]
  dsimp only
  rw [List.drop_drop, readCStr_ok (payload.drop (4 + (4 + (4 + (4 + 8))))) (16 - 1)
    (by simp only [List.length_drop]; omega)]
  dsimp only
  rw [readInto_some, readInto_some, readInto_some]
  exact ⟨rfl, rfl⟩


/-- C10: for a query-file-info response whose status-0 header arrives whole and
announces a payload of at least 39 bytes that the connection delivers (in reads of any
sizes), `RecvRes` returns no error and decodes FileSize from bytes 0..8 (big-endian
`int64`), CreateTimeStamp from bytes 12..16 and CRC32 from bytes 20..24 (big-endian
`int32`), and SourceIPAddress from the 15 bytes at 24..39 with the null padding removed;
bytes 8..12 and 16..20 reach no field. -/
theorem queryFileInfo_RecvRes_decode (this : storageQueryFileInfoTask) (conn : Conn)
    (h : header) (payload rest : List Byte)
    (hpend : conn.pending = h.bytes ++ (payload ++ rest))
    (hseg : ∀ s ∈ conn.segs.head?, 10 ≤ s)
    (hst : h.status = 0)
    (hlen : h.pkgLen = payload.length)
    (hfit : (payload.length : Int) < 2 ^ 63)
    (h39 : 39 ≤ payload.length) :
    (this.RecvRes conn).res = .ok ∧
    (this.RecvRes conn).task.fileInfo = some
      { FileSize := wrapInt64 (beNat (payload.take 8)),
        CreateTimeStamp := wrapInt32 (beNat ((payload.drop 12).take 4)),
        CRC32 := wrapInt32 (beNat ((payload.drop 20).take 4)),
        SourceID := 0,
        SourceIPAddress := trimNulls ((payload.drop 24).take 15) } :=
  queryFileInfo_RecvRes_fields this conn h payload rest hpend hseg hst hlen hfit h39

/-- C10, witness: a stub sending fileSize 2048, createTimestamp 1700000000, crc32 123456
and the address "192.168.1.1" padded with nulls to 15 bytes, with reserved bytes
9 9 9 9 and 7 7 7 7, delivered in reads of 10, 3, 1 and 100 bytes: the four fields are
decoded exactly. -/
theorem queryFileInfo_RecvRes_decode_witness :
    ((⟨⟨0, 0, 0⟩, ascii "group1", ascii "M00/a", none, []⟩ :
        storageQueryFileInfoTask).RecvRes
      (replyConn (header.bytes ⟨39, 22, 0⟩ ++
        ((binaryWriteInt64 2048 ++ [9, 9, 9, 9] ++ beBytes 4 1700000000 ++ [7, 7, 7, 7] ++
          beBytes 4 123456 ++ fixedField 15 (ascii "192.168.1.1")) ++ []))
        [10, 3, 0, 100])).task.fileInfo = some
      { FileSize := 2048, CreateTimeStamp := 1700000000, CRC32 := 123456, SourceID := 0,
        SourceIPAddress := ascii "192.168.1.1" } := by
  have h := (queryFileInfo_RecvRes_decode
    (⟨⟨0, 0, 0⟩, ascii "group1", ascii "M00/a", none, []⟩ : storageQueryFileInfoTask)
    (replyConn (header.bytes ⟨39, 22, 0⟩ ++
        ((binaryWriteInt64 2048 ++ [9, 9, 9, 9] ++ beBytes 4 1700000000 ++ [7, 7, 7, 7] ++
          beBytes 4 123456 ++ fixedField 15 (ascii "192.168.1.1")) ++ []))
        [10, 3, 0, 100])
    ⟨39, 22, 0⟩
    (binaryWriteInt64 2048 ++ [9, 9, 9, 9] ++ beBytes 4 1700000000 ++ [7, 7, 7, 7] ++
          beBytes 4 123456 ++ fixedField 15 (ascii "192.168.1.1")) []
    rfl (by decide) rfl (by decide) (by decide) (by decide)).2
  rw [h]
  decide

theorem binaryRead_snd_length (w : Nat) (buf : List Byte) :
    (binaryRead w buf).2.length = buf.length - w := by
  unfold binaryRead
  split
  · simp; omega
  · simp

theorem readCStr_none (buffer : List Byte) (size : Nat) (h : buffer.length < size) :
    readCStrFromByteBuffer buffer size = none := by
  unfold readCStrFromByteBuffer
  rw [if_pos h]

/-- C11: for a query-file-info response whose status-0 header announces a payload shorter
than 39 bytes, delivered in full, `RecvRes` returns an error and leaves the task's
fileInfo as it was. -/
theorem queryFileInfo_RecvRes_short_payload (this : storageQueryFileInfoTask) (conn : Conn)
    (h : header) (payload rest : List Byte)
    (hpend : conn.pending = h.bytes ++ (payload ++ rest))
    (hseg : ∀ s ∈ conn.segs.head?, 10 ≤ s)
    (hst : h.status = 0)
    (hlen : h.pkgLen = payload.length)
    (h39 : payload.length < 39) :
    (this.RecvRes conn).res = .err .shortField ∧
    (this.RecvRes conn).task.fileInfo = this.fileInfo := by
  have hh := RecvHeader_of_bytes this.hdr h conn _ hpend hseg (by rw [hlen]; omega)
  rw [hst] at hh
  simp only [ne_eq, not_true_eq_false, if_false] at hh
  obtain ⟨segs1, hw⟩ := writeFromConnToBuffer_deliver
    { conn with pending := payload ++ rest, segs := conn.segs.tail } payload.length
    (by simp)
  have htake : (payload ++ rest).take payload.length = payload := List.take_left _ _
  simp only [htake] at hw
  unfold storageQueryFileInfoTask.RecvRes
  rw [hh]
  dsimp only
  rw [if_neg (by rw [hlen]; omega), hlen, Int.toNat_ofNat, hw]
  dsimp only
  rw [if_neg (by decide), readCStr_none _ _
    (by simp only [binaryRead_snd_length]; omega)]
  exact ⟨rfl, rfl⟩

/-- C11, witness: payloads of 38 bytes and of 0 bytes are both refused. -/
theorem queryFileInfo_RecvRes_short_payload_witness :
    ((⟨⟨0, 0, 0⟩, ascii "group1", ascii "M00/a", none, []⟩ :
        storageQueryFileInfoTask).RecvRes
      (replyConn (header.bytes ⟨38, 22, 0⟩ ++ (List.replicate 38 65 ++ [])) [])).res
        = .err .shortField ∧
    ((⟨⟨0, 0, 0⟩, ascii "group1", ascii "M00/a", none, []⟩ :
        storageQueryFileInfoTask).RecvRes
      (replyConn (header.bytes ⟨38, 22, 0⟩ ++ (List.replicate 38 65 ++ [])) [])).task.fileInfo
        = none ∧
    ((⟨⟨0, 0, 0⟩, ascii "group1", ascii "M00/a", none, []⟩ :
        storageQueryFileInfoTask).RecvRes
      (replyConn (header.bytes ⟨0, 22, 0⟩ ++ ([] ++ [])) [])).res = .err .shortField :=
  ⟨(queryFileInfo_RecvRes_short_payload _ _ ⟨38, 22, 0⟩ (List.replicate 38 65) [] rfl
      (by decide) rfl (by decide) (by decide)).1,
   (queryFileInfo_RecvRes_short_payload _ _ ⟨38, 22, 0⟩ (List.replicate 38 65) [] rfl
      (by decide) rfl (by decide) (by decide)).2,
   (queryFileInfo_RecvRes_short_payload _ _ ⟨0, 22, 0⟩ [] [] rfl
      (by decide) rfl (by decide) (by decide)).1⟩

/-! ## The download response -/

/-- C12: for a download task with localFilename unset and a caller-supplied buffer
shorter than the payload length of the (status-0, wholly received) response header,
`RecvRes` returns an error, leaves every payload byte pending on the connection, leaves
the caller's buffer as it was and touches no file. -/
theorem download_RecvRes_buffer_too_small (this : storageDownloadTask) (conn : Conn)
    (disk : Disk) (h : header) (payload buffer : List Byte)
    (hpend : conn.pending = h.bytes ++ payload)
    (hseg : ∀ s ∈ conn.segs.head?, 10 ≤ s)
    (hst : h.status = 0)
    (hrange : -2 ^ 63 ≤ h.pkgLen ∧ h.pkgLen < 2 ^ 63)
    (hname : this.localFilename = [])
    (hbuf : this.buffer = some buffer)
    (hshort : (buffer.length : Int) < h.pkgLen) :
    (this.RecvRes conn disk).1.res = .err .bufferTooSmall ∧
    (this.RecvRes conn disk).1.conn.pending = payload ∧
    (this.RecvRes conn disk).1.task.buffer = some buffer ∧
    (this.RecvRes conn disk).2 = disk := by
  have hh := RecvHeader_of_bytes this.hdr h conn payload hpend hseg hrange
  rw [hst] at hh
  simp only [ne_eq, not_true_eq_false, if_false] at hh
  unfold storageDownloadTask.RecvRes
  rw [hh]
  dsimp only
  rw [hname, if_neg (by simp)]
  unfold storageDownloadTask.recvBuffer
  dsimp only
  rw [hbuf]
  dsimp only
  rw [if_pos hshort]
  exact ⟨rfl, rfl, rfl, rfl⟩

/-- C12, witness: a 4-byte caller buffer against a 6-byte payload. -/
theorem download_RecvRes_buffer_too_small_witness :
    ((⟨⟨0, 0, 0⟩, ascii "group1", ascii "M00/a", 0, 0, [], some [1, 2, 3, 4]⟩ :
        storageDownloadTask).RecvRes
      (replyConn (header.bytes ⟨6, 14, 0⟩ ++ ascii "abcdef") []) ⟨true, true, []⟩).1.res
        = .err .bufferTooSmall ∧
    ((⟨⟨0, 0, 0⟩, ascii "group1", ascii "M00/a", 0, 0, [], some [1, 2, 3, 4]⟩ :
        storageDownloadTask).RecvRes
      (replyConn (header.bytes ⟨6, 14, 0⟩ ++ ascii "abcdef") [])
        ⟨true, true, []⟩).1.conn.pending = ascii "abcdef" ∧
    ((⟨⟨0, 0, 0⟩, ascii "group1", ascii "M00/a", 0, 0, [], some [1, 2, 3, 4]⟩ :
        storageDownloadTask).RecvRes
      (replyConn (header.bytes ⟨6, 14, 0⟩ ++ ascii "abcdef") [])
        ⟨true, true, []⟩).1.task.buffer = some [1, 2, 3, 4] :=
  ⟨(download_RecvRes_buffer_too_small _ _ ⟨true, true, []⟩ ⟨6, 14, 0⟩ (ascii "abcdef")
      [1, 2, 3, 4] rfl (by decide) rfl (by decide) rfl rfl (by decide)).1,
   (download_RecvRes_buffer_too_small _ _ ⟨true, true, []⟩ ⟨6, 14, 0⟩ (ascii "abcdef")
      [1, 2, 3, 4] rfl (by decide) rfl (by decide) rfl rfl (by decide)).2.1,
   (download_RecvRes_buffer_too_small _ _ ⟨true, true, []⟩ ⟨6, 14, 0⟩ (ascii "abcdef")
      [1, 2, 3, 4] rfl (by decide) rfl (by decide) rfl rfl (by decide)).2.2.1⟩

/-- C14: for a delete task whose group name has at most 16 bytes (the filename length
plus 16 within `int64`, the two writes accepted), `SendReq` returns no error, sets the
header payload length to len(remoteFilename) + 16, and writes after the header exactly
that many bytes: the group name padded with nulls to 16 bytes, then the remote filename
bytes. -/
theorem delete_SendReq_layout (P : ProtoCmd) (this : storageDeleteTask) (conn : Conn)
    (hg : this.groupName.length ≤ 16)
    (hfit : (this.remoteFilename.length : Int) + 16 < 2 ^ 63)
    (hw : 2 ≤ conn.writable) :
    (this.SendReq P conn).res = .ok ∧
    (this.SendReq P conn).task.hdr.pkgLen = (this.remoteFilename.length + 16 : Nat) ∧
    (this.SendReq P conn).conn.written =
      conn.written ++ (this.SendReq P conn).task.hdr.bytes ++
        ((this.groupName ++ List.replicate (16 - this.groupName.length) 0) ++
          this.remoteFilename) ∧
    ((this.groupName ++ List.replicate (16 - this.groupName.length) 0) ++
          this.remoteFilename).length = this.remoteFilename.length + 16 := by
  have hwrap : wrapInt64 ((this.remoteFilename.length : Int) + 16)
      = (this.remoteFilename.length + 16 : Nat) := by
    rw [wrapInt64_of_range] <;> push_cast <;> omega
  simp only [storageDeleteTask.SendReq, header.SendHeader, copyInto_zeroed _ 16 hg]
  rw [Conn.Write_ok _ _ (by omega)]
  simp only []
  rw [Conn.Write_ok _ _ (by simp; omega)]
  simp only [hwrap, List.length_append,
    List.length_replicate, List.nil_append, List.append_assoc, true_and]
  omega

/-- C14, witness: group "group1" and remote name "M00/00/00/test.txt". -/
theorem delete_SendReq_layout_witness :
    ((⟨⟨0, 0, 0⟩, ascii "group1", ascii "M00/00/00/test.txt"⟩ :
        storageDeleteTask).SendReq fastdfsCmd freshConn).res = .ok ∧
    ((⟨⟨0, 0, 0⟩, ascii "group1", ascii "M00/00/00/test.txt"⟩ :
        storageDeleteTask).SendReq fastdfsCmd freshConn).task.hdr.pkgLen = 34 ∧
    ((⟨⟨0, 0, 0⟩, ascii "group1", ascii "M00/00/00/test.txt"⟩ :
        storageDeleteTask).SendReq fastdfsCmd freshConn).conn.written =
      [0, 0, 0, 0, 0, 0, 0, 34, 12, 0] ++
        (ascii "group1" ++ [0, 0, 0, 0, 0, 0, 0, 0, 0, 0] ++ ascii "M00/00/00/test.txt") := by
  have h := delete_SendReq_layout fastdfsCmd
    (⟨⟨0, 0, 0⟩, ascii "group1", ascii "M00/00/00/test.txt"⟩ : storageDeleteTask)
    freshConn (by decide) (by decide) (by decide)
  refine ⟨h.1, h.2.1, ?_⟩
  rw [h.2.2.1]
  decide

theorem delete_SendReq_frame (P : ProtoCmd) (d : storageDeleteTask) (conn : Conn) :
    ((d.SendReq P conn).res, (d.SendReq P conn).conn) =
      groupNameRequest
        (header.bytes { pkgLen := wrapInt64 ((d.remoteFilename.length : Int) + 16),
                        cmd := P.STORAGE_PROTO_CMD_DELETE_FILE, status := d.hdr.status })
        d.groupName d.remoteFilename conn ∧
    (d.SendReq P conn).task.hdr =
      { pkgLen := wrapInt64 ((d.remoteFilename.length : Int) + 16),
        cmd := P.STORAGE_PROTO_CMD_DELETE_FILE, status := d.hdr.status } := by
  simp only [storageDeleteTask.SendReq, header.SendHeader, groupNameRequest, List.nil_append]
  generalize header.bytes _ = hb
  cases conn.Write hb with
  | none => exact ⟨rfl, rfl⟩
  | some c1 =>
    dsimp only
    cases copyInto d.groupName 0 (List.replicate 16 0) with
    | none => exact ⟨rfl, rfl⟩
    | some field =>
      dsimp only
      cases c1.Write (field ++ d.remoteFilename) <;> exact ⟨rfl, rfl⟩

theorem queryFileInfo_SendReq_frame (P : ProtoCmd) (q : storageQueryFileInfoTask)
    (conn : Conn) :
    ((q.SendReq P conn).res, (q.SendReq P conn).conn) =
      groupNameRequest
        (header.bytes { pkgLen := wrapInt64 ((q.remoteFilename.length : Int) + 16),
                        cmd := P.STORAGE_PROTO_CMD_QUERY_FILE_INFO, status := q.hdr.status })
        q.groupName q.remoteFilename conn ∧
    (q.SendReq P conn).task.hdr =
      { pkgLen := wrapInt64 ((q.remoteFilename.length : Int) + 16),
        cmd := P.STORAGE_PROTO_CMD_QUERY_FILE_INFO, status := q.hdr.status } := by
  simp only [storageQueryFileInfoTask.SendReq, header.SendHeader, groupNameRequest,
    List.nil_append]
  generalize header.bytes _ = hb
  cases conn.Write hb with
  | none => exact ⟨rfl, rfl⟩
  | some c1 =>
    dsimp only
    cases copyInto q.groupName 0 (List.replicate 16 0) with
    | none => exact ⟨rfl, rfl⟩
    | some field =>
      dsimp only
      cases c1.Write (field ++ q.remoteFilename) <;> exact ⟨rfl, rfl⟩

/-- Two header encodings of ten bytes lead the shared framing to the same result and to
the same bytes after the header. -/
theorem groupNameRequest_header_indep (hb1 hb2 g r : List Byte) (conn : Conn)
    (h1 : hb1.length = 10) (h2 : hb2.length = 10) :
    (groupNameRequest hb1 g r conn).1 = (groupNameRequest hb2 g r conn).1 ∧
    (groupNameRequest hb1 g r conn).2.written.drop (conn.written.length + 10) =
      (groupNameRequest hb2 g r conn).2.written.drop (conn.written.length + 10) := by
  have hdrop : ∀ (hb tl : List Byte), hb.length = 10 →
      (conn.written ++ hb ++ tl).drop (conn.written.length + 10) = tl := by
    intro hb tl hl
    rw [drop_append_len (conn.written ++ hb) tl _ (by simp [hl])]
  have hdrop0 : ∀ (hb : List Byte), hb.length = 10 →
      (conn.written ++ hb).drop (conn.written.length + 10) = [] := by
    intro hb hl
    apply List.drop_of_length_le
    simp [hl]
  unfold groupNameRequest
  by_cases hw0 : conn.writable = 0
  · have e : ∀ bs, conn.Write bs = none := by
      intro bs; unfold Conn.Write; rw [if_pos hw0]
    rw [e, e]
    exact ⟨rfl, rfl⟩
  · rw [Conn.Write_ok _ _ (by omega), Conn.Write_ok _ _ (by omega)]
    dsimp only
    cases copyInto g 0 (List.replicate 16 0) with
    | none =>
      dsimp only
      exact ⟨rfl, by rw [hdrop0 _ h1, hdrop0 _ h2]⟩
    | some field =>
      dsimp only
      by_cases hw1 : conn.writable - 1 = 0
      · have e : ∀ (c : Conn) bs, c.writable = conn.writable - 1 → c.Write bs = none := by
          intro c bs hc; unfold Conn.Write; rw [if_pos (by omega)]
        rw [e _ _ rfl, e _ _ rfl]
        dsimp only
        exact ⟨rfl, by rw [hdrop0 _ h1, hdrop0 _ h2]⟩
      · rw [Conn.Write_ok _ _ (by dsimp only; omega), Conn.Write_ok _ _ (by dsimp only; omega)]
        dsimp only
        exact ⟨rfl, by rw [hdrop _ _ h1, hdrop _ _ h2]⟩

/-- C15: on the same group name and remote filename (and the same connection), the
query-file-info `SendReq` ends as the delete `SendReq` does, puts the same payload length
in the header and writes the same bytes after the 10 header bytes; the headers differ in
the command code only, and with equal command codes the two connections end equal. -/
theorem queryFileInfo_SendReq_eq_delete (P : ProtoCmd) (q : storageQueryFileInfoTask)
    (d : storageDeleteTask) (conn : Conn)
    (hg : q.groupName = d.groupName) (hr : q.remoteFilename = d.remoteFilename)
    (hs : q.hdr.status = d.hdr.status) :
    (q.SendReq P conn).res = (d.SendReq P conn).res ∧
    (q.SendReq P conn).task.hdr.pkgLen = (d.SendReq P conn).task.hdr.pkgLen ∧
    (q.SendReq P conn).conn.written.drop (conn.written.length + 10) =
      (d.SendReq P conn).conn.written.drop (conn.written.length + 10) ∧
    (q.SendReq P conn).task.hdr =
      { (d.SendReq P conn).task.hdr with cmd := P.STORAGE_PROTO_CMD_QUERY_FILE_INFO } ∧
    (d.SendReq P conn).task.hdr.cmd = P.STORAGE_PROTO_CMD_DELETE_FILE ∧
    (P.STORAGE_PROTO_CMD_QUERY_FILE_INFO = P.STORAGE_PROTO_CMD_DELETE_FILE →
      (q.SendReq P conn).conn = (d.SendReq P conn).conn) := by
  obtain ⟨fq, hq⟩ := queryFileInfo_SendReq_frame P q conn
  obtain ⟨fd, hd⟩ := delete_SendReq_frame P d conn
  rw [hg, hr, hs] at fq
  rw [hr, hs] at hq
  have hi := groupNameRequest_header_indep
    (header.bytes { pkgLen := wrapInt64 ((d.remoteFilename.length : Int) + 16),
                    cmd := P.STORAGE_PROTO_CMD_QUERY_FILE_INFO, status := d.hdr.status })
    (header.bytes { pkgLen := wrapInt64 ((d.remoteFilename.length : Int) + 16),
                    cmd := P.STORAGE_PROTO_CMD_DELETE_FILE, status := d.hdr.status })
    d.groupName d.remoteFilename conn (header_bytes_length _) (header_bytes_length _)
  rw [← fq, ← fd] at hi
  refine ⟨hi.1, ?_, hi.2, ?_, ?_, ?_⟩
  · rw [hq, hd]
  · rw [hq, hd]
  · rw [hd]
  · intro he
    rw [he] at fq
    have := fq.trans fd.symm
    exact congrArg Prod.snd this

/-- C15, witness: the two requests for group "group1" and "M00/a" on a fresh connection
carry the same 21 payload bytes. -/
theorem queryFileInfo_SendReq_eq_delete_witness :
    ((⟨⟨0, 0, 0⟩, ascii "group1", ascii "M00/a", none, []⟩ :
        storageQueryFileInfoTask).SendReq fastdfsCmd freshConn).conn.written.drop
        (freshConn.written.length + 10) =
    ((⟨⟨0, 0, 0⟩, ascii "group1", ascii "M00/a"⟩ :
        storageDeleteTask).SendReq fastdfsCmd freshConn).conn.written.drop
        (freshConn.written.length + 10) :=
  (queryFileInfo_SendReq_eq_delete fastdfsCmd
    (⟨⟨0, 0, 0⟩, ascii "group1", ascii "M00/a", none, []⟩ : storageQueryFileInfoTask)
    (⟨⟨0, 0, 0⟩, ascii "group1", ascii "M00/a"⟩ : storageDeleteTask)
    freshConn rfl rfl rfl).2.2.1

/-! ## The upload-slave response and the delete response -/

/-- The outcome of receiving a header does not depend on the header the task held
before, and the header held after a success is the received one. -/
theorem RecvHeader_indep (h0 h1 : header) (conn : Conn) :
    (h0.RecvHeader conn).1 = (h1.RecvHeader conn).1 ∧
    (h0.RecvHeader conn).2.2 = (h1.RecvHeader conn).2.2 ∧
    ((h0.RecvHeader conn).1 = .ok → (h0.RecvHeader conn).2.1 = (h1.RecvHeader conn).2.1) := by
  unfold header.RecvHeader
  cases conn.Read (List.replicate 10 0) with
  | none => exact ⟨rfl, rfl, fun h => by cases h⟩
  | some r =>
    obtain ⟨buf, n, c1⟩ := r
    dsimp only
    by_cases hn : n < 10
    · rw [if_pos hn, if_pos hn]
      exact ⟨rfl, rfl, fun h => by cases h⟩
    · rw [if_neg hn, if_neg hn]
      exact ⟨rfl, rfl, fun _ => rfl⟩

/-- The part of the upload `RecvRes` after the header: result, fileId parsed (if any) and
connection, as a function of the received header and the connection. -/
theorem upload_RecvRes_after_header (this : storageUploadTask) (conn : Conn) :
    ∀ r h c1, this.hdr.RecvHeader conn = (r, h, c1) → r ≠ .ok →
      this.RecvRes conn = ⟨r, { this with hdr := h }, c1⟩ := by
  intro r h c1 hh hr
  unfold storageUploadTask.RecvRes
  rw [hh]
  cases r with
  | ok => exact absurd rfl hr
  | err e => rfl
  | indexOutOfRange => rfl
  | makeSliceLen => rfl

theorem uploadSlave_RecvRes_after_header (this : storageUploadSlaveTask) (conn : Conn) :
    ∀ r h c1, this.hdr.RecvHeader conn = (r, h, c1) → r ≠ .ok →
      this.RecvRes conn = ⟨r, { this with hdr := h }, c1⟩ := by
  intro r h c1 hh hr
  unfold storageUploadSlaveTask.RecvRes
  rw [hh]
  cases r with
  | ok => exact absurd rfl hr
  | err e => rfl
  | indexOutOfRange => rfl
  | makeSliceLen => rfl

/-- The upload-slave `RecvRes` and the upload `RecvRes` run the same steps on the same
connection: same result, same connection, and on success same fileId and header. -/
theorem RecvRes_slave_upload_agree (s : storageUploadSlaveTask) (u : storageUploadTask)
    (conn : Conn) :
    (s.RecvRes conn).res = (u.RecvRes conn).res ∧
    (s.RecvRes conn).conn = (u.RecvRes conn).conn ∧
    ((u.RecvRes conn).res = .ok →
      (s.RecvRes conn).task.fileId = (u.RecvRes conn).task.fileId ∧
      (s.RecvRes conn).task.hdr = (u.RecvRes conn).task.hdr) := by
  obtain ⟨e1, e2, e3⟩ := RecvHeader_indep s.hdr u.hdr conn
  rcases hs : s.hdr.RecvHeader conn with ⟨rs, hs1, cs⟩
  rcases hu : u.hdr.RecvHeader conn with ⟨ru, hu1, cu⟩
  rw [hs, hu] at e1 e2 e3
  dsimp only at e1 e2 e3
  subst e1 e2
  by_cases hok : rs = .ok
  · subst hok
    have e4 : hs1 = hu1 := e3 rfl
    subst e4
    unfold storageUploadSlaveTask.RecvRes storageUploadTask.RecvRes
    rw [hs, hu]
    dsimp only
    by_cases h16 : hs1.pkgLen ≤ 16
    · rw [if_pos h16, if_pos h16]
      exact ⟨rfl, rfl, fun h => by cases h⟩
    · rw [if_neg h16, if_neg h16]
      by_cases h100 : hs1.pkgLen > 100
      · rw [if_pos h100, if_pos h100]
        exact ⟨rfl, rfl, fun h => by cases h⟩
      · rw [if_neg h100, if_neg h100]
        cases cs.Read (List.replicate hs1.pkgLen.toNat 0) with
        | none => exact ⟨rfl, rfl, fun h => by cases h⟩
        | some r =>
          obtain ⟨buf, n, c2⟩ := r
          dsimp only
          cases readCStrFromByteBuffer buf 16 with
          | none => exact ⟨rfl, rfl, fun h => by cases h⟩
          | some g =>
            obtain ⟨groupName, buffer⟩ := g
            dsimp only
            cases readCStrFromByteBuffer buffer (hs1.pkgLen.toNat - 16) with
            | none => exact ⟨rfl, rfl, fun h => by cases h⟩
            | some f => exact ⟨rfl, rfl, fun _ => ⟨rfl, rfl⟩⟩
  · rw [uploadSlave_RecvRes_after_header s conn rs hs1 cs hs hok,
      upload_RecvRes_after_header u conn rs hu1 cs hu hok]
    exact ⟨rfl, rfl, fun h => absurd h hok⟩

/-- C16: on every connection state (every response header and payload, every way the
stream cuts them into reads), the upload-slave `RecvRes` and the upload `RecvRes` end
with the same result and leave the same connection and header, and when they return no
error they set the same fileId. -/
theorem uploadSlave_RecvRes_eq_upload (s : storageUploadSlaveTask) (u : storageUploadTask)
    (conn : Conn) :
    (s.RecvRes conn).res = (u.RecvRes conn).res ∧
    (s.RecvRes conn).conn = (u.RecvRes conn).conn ∧
    ((u.RecvRes conn).res = .ok →
      (s.RecvRes conn).task.fileId = (u.RecvRes conn).task.fileId ∧
      (s.RecvRes conn).task.hdr = (u.RecvRes conn).task.hdr) :=
  RecvRes_slave_upload_agree s u conn

/-- C16, witness: the "group1" response gives both tasks the same fileId. -/
theorem uploadSlave_RecvRes_eq_upload_witness :
    ((⟨⟨0, 0, 0⟩, ⟨0, [], none, []⟩, 0, [], ascii "M00/a", ascii "_big", ascii "jpg"⟩ :
        storageUploadSlaveTask).RecvRes
      (replyConn (header.bytes ⟨34, 21, 0⟩ ++
        (fixedField 16 (ascii "group1") ++ ascii "M00/00/00/test.txt")) [])).task.fileId =
    ((⟨⟨0, 0, 0⟩, ⟨0, [], none, []⟩, 0, []⟩ : storageUploadTask).RecvRes
      (replyConn (header.bytes ⟨34, 21, 0⟩ ++
        (fixedField 16 (ascii "group1") ++ ascii "M00/00/00/test.txt")) [])).task.fileId :=
  ((uploadSlave_RecvRes_eq_upload _ _ _).2.2 (by decide)).1

/-- C17: when the ten header bytes `hb` arrive whole, the delete `RecvRes` returns no
error exactly when the status byte `hb[9]` is zero, leaves on the connection everything
that followed the header, and keeps the task's group name and remote filename. -/
theorem delete_RecvRes_header_only (this : storageDeleteTask) (conn : Conn)
    (hb rest : List Byte)
    (hlen : hb.length = 10)
    (hpend : conn.pending = hb ++ rest)
    (hseg : ∀ s ∈ conn.segs.head?, 10 ≤ s) :
    ((this.RecvRes conn).res = .ok ↔ hb.getD 9 0 = 0) ∧
    (this.RecvRes conn).conn.pending = rest ∧
    (this.RecvRes conn).conn.written = conn.written ∧
    (this.RecvRes conn).task.groupName = this.groupName ∧
    (this.RecvRes conn).task.remoteFilename = this.remoteFilename := by
  have hl : (List.replicate 10 (0 : Byte)).length ≤ conn.pending.length := by
    rw [hpend]; simp [hlen]
  have e10 : conn.pending.take 10 = hb := by rw [hpend, take_append_len _ _ 10 hlen]
  have ed : conn.pending.drop 10 = rest := by rw [hpend, drop_append_len _ _ 10 hlen]
  have key : ∃ hdr1 : header, this.RecvRes conn =
      ⟨if hb.getD 9 0 ≠ 0 then .err (.badStatus (hb.getD 9 0)) else .ok,
        { this with hdr := hdr1 },
        { conn with pending := rest, segs := conn.segs.tail }⟩ := by
    refine ⟨⟨wrapInt64 (beNat (hb.take 8)), hb.getD 8 0, hb.getD 9 0⟩, ?_⟩
    unfold storageDeleteTask.RecvRes header.RecvHeader
    rw [Conn.Read_whole conn _ (by simp) hl (by simpa using hseg)]
    simp only [List.length_replicate, lt_self_iff_false, if_false, e10, ed]
    by_cases h0 : hb.getD 9 0 = 0
    · have hn : ¬ (hb.getD 9 0 ≠ 0) := fun h => h h0
      simp only [if_neg hn]
    · have hp : hb.getD 9 0 ≠ 0 := h0
      simp only [if_pos hp]
  obtain ⟨hdr1, key⟩ := key
  rw [key]
  refine ⟨?_, rfl, rfl, rfl, rfl⟩
  show (if hb.getD 9 0 ≠ 0 then Res.err (.badStatus (hb.getD 9 0)) else Res.ok) = Res.ok ↔ _
  by_cases h0 : hb.getD 9 0 = 0
  · have hn : ¬ (hb.getD 9 0 ≠ 0) := fun h => h h0
    rw [if_neg hn]
    exact ⟨fun _ => h0, fun _ => rfl⟩
  · have hp : hb.getD 9 0 ≠ 0 := h0
    rw [if_pos hp]
    exact ⟨fun h => Res.noConfusion h, fun h => absurd h h0⟩

/-- C17, witness: a stub answering with status 0 makes the delete succeed and leaves the
bytes after the header unread; status 2 makes it fail. -/
theorem delete_RecvRes_header_only_witness :
    ((⟨⟨0, 0, 0⟩, ascii "group1", ascii "M00/a"⟩ : storageDeleteTask).RecvRes
      (replyConn ([0, 0, 0, 0, 0, 0, 0, 0, 12, 0] ++ [7, 7]) [])).res = .ok ∧
    ((⟨⟨0, 0, 0⟩, ascii "group1", ascii "M00/a"⟩ : storageDeleteTask).RecvRes
      (replyConn ([0, 0, 0, 0, 0, 0, 0, 0, 12, 0] ++ [7, 7]) [])).conn.pending = [7, 7] ∧
    ((⟨⟨0, 0, 0⟩, ascii "group1", ascii "M00/a"⟩ : storageDeleteTask).RecvRes
      (replyConn ([0, 0, 0, 0, 0, 0, 0, 0, 12, 2] ++ [7, 7]) [])).res ≠ .ok :=
  ⟨(delete_RecvRes_header_only _ _ [0, 0, 0, 0, 0, 0, 0, 0, 12, 0] [7, 7] rfl rfl
      (by decide)).1.mpr (by decide),
   (delete_RecvRes_header_only _ _ [0, 0, 0, 0, 0, 0, 0, 0, 12, 0] [7, 7] rfl rfl
      (by decide)).2.1,
   fun h => absurd ((delete_RecvRes_header_only _ _ [0, 0, 0, 0, 0, 0, 0, 0, 12, 2] [7, 7]
      rfl rfl (by decide)).1.mp h) (by decide)⟩

/-! ## Bounds on the upload responses -/

theorem trimNulls_length_le (l : List Byte) : (trimNulls l).length ≤ l.length := by
  unfold trimNulls
  rw [List.length_reverse]
  have := (List.dropWhile_sublist (l := l.reverse) (fun b => decide (b = 0))).length_le
  simpa using this

/-- An upload `RecvRes` that returns no error received a payload length from 17 to 100
and built a fileId of at most 101 bytes. -/
theorem upload_RecvRes_ok_bounds (u : storageUploadTask) (conn : Conn)
    (hok : (u.RecvRes conn).res = .ok) :
    17 ≤ (u.RecvRes conn).task.hdr.pkgLen ∧ (u.RecvRes conn).task.hdr.pkgLen ≤ 100 ∧
    (u.RecvRes conn).task.fileId.length ≤ 101 := by
  rcases hu : u.hdr.RecvHeader conn with ⟨r, h, c1⟩
  by_cases hr : r = .ok
  · subst hr
    revert hok
    unfold storageUploadTask.RecvRes
    rw [hu]
    dsimp only
    by_cases h16 : h.pkgLen ≤ 16
    · rw [if_pos h16]; intro hok; cases hok
    · rw [if_neg h16]
      by_cases h100 : h.pkgLen > 100
      · rw [if_pos h100]; intro hok; cases hok
      · rw [if_neg h100]
        cases c1.Read (List.replicate h.pkgLen.toNat 0) with
        | none => intro hok; cases hok
        | some rd =>
          obtain ⟨buf, n, c2⟩ := rd
          dsimp only
          cases hg : readCStrFromByteBuffer buf 16 with
          | none => intro hok; cases hok
          | some g =>
            obtain ⟨groupName, buffer⟩ := g
            dsimp only
            cases hf : readCStrFromByteBuffer buffer (h.pkgLen.toNat - 16) with
            | none => intro hok; cases hok
            | some f =>
              obtain ⟨remoteFileName, rest⟩ := f
              intro _
              dsimp only
              have hgl : groupName.length ≤ 16 := by
                unfold readCStrFromByteBuffer at hg
                split at hg
                · cases hg
                · cases hg
                  exact le_trans (trimNulls_length_le _) (List.length_take_le _ _)
              have hfl : remoteFileName.length ≤ h.pkgLen.toNat - 16 := by
                unfold readCStrFromByteBuffer at hf
                split at hf
                · cases hf
                · cases hf
                  exact le_trans (trimNulls_length_le _) (List.length_take_le _ _)
              refine ⟨by omega, by omega, ?_⟩
              simp only [List.length_append, List.length_cons, List.length_nil]
              omega
  · rw [upload_RecvRes_after_header u conn r h c1 hu hr] at hok
    exact absurd hok hr

/-- After a received header whose payload length lies outside 17..100 the upload
`RecvRes` returns one of the two length errors and leaves the connection as the header
read left it. -/
theorem upload_RecvRes_guard (u : storageUploadTask) (conn : Conn) (h : header) (c1 : Conn)
    (hh : u.hdr.RecvHeader conn = (.ok, h, c1)) (hbad : h.pkgLen < 17 ∨ 100 < h.pkgLen) :
    ((u.RecvRes conn).res = .err .pkgLenTooShort ∨
      (u.RecvRes conn).res = .err .pkgLenTooLong) ∧
    (u.RecvRes conn).conn = c1 := by
  unfold storageUploadTask.RecvRes
  rw [hh]
  dsimp only
  by_cases h16 : h.pkgLen ≤ 16
  · rw [if_pos h16]
    exact ⟨Or.inl rfl, rfl⟩
  · rw [if_neg h16, if_pos (by omega)]
    exact ⟨Or.inr rfl, rfl⟩

/-- C18: whatever payload length the received header carries, the upload `RecvRes` and
the upload-slave `RecvRes` go on to the payload buffer only with a length from 17 to
100: for any other length (negative and huge ones included) they return a length error
with the connection as the header read left it, and whenever they return no error the
length was within 17..100 and the fileId has at most 101 bytes. -/
theorem RecvRes_payload_length_guard (u : storageUploadTask) (s : storageUploadSlaveTask)
    (conn : Conn) :
    (∀ h c1, u.hdr.RecvHeader conn = (.ok, h, c1) → (h.pkgLen < 17 ∨ 100 < h.pkgLen) →
      ((u.RecvRes conn).res = .err .pkgLenTooShort ∨
        (u.RecvRes conn).res = .err .pkgLenTooLong) ∧ (u.RecvRes conn).conn = c1) ∧
    (∀ h c1, s.hdr.RecvHeader conn = (.ok, h, c1) → (h.pkgLen < 17 ∨ 100 < h.pkgLen) →
      ((s.RecvRes conn).res = .err .pkgLenTooShort ∨
        (s.RecvRes conn).res = .err .pkgLenTooLong) ∧ (s.RecvRes conn).conn = c1) ∧
    ((u.RecvRes conn).res = .ok →
      17 ≤ (u.RecvRes conn).task.hdr.pkgLen ∧ (u.RecvRes conn).task.hdr.pkgLen ≤ 100 ∧
      (u.RecvRes conn).task.fileId.length ≤ 101) ∧
    ((s.RecvRes conn).res = .ok →
      17 ≤ (s.RecvRes conn).task.hdr.pkgLen ∧ (s.RecvRes conn).task.hdr.pkgLen ≤ 100 ∧
      (s.RecvRes conn).task.fileId.length ≤ 101) := by
  obtain ⟨a1, a2, a3⟩ := RecvRes_slave_upload_agree s ⟨s.hdr, ⟨0, [], none, []⟩, 0, []⟩ conn
  refine ⟨fun h c1 hh hbad => upload_RecvRes_guard u conn h c1 hh hbad, ?_,
    fun hok => upload_RecvRes_ok_bounds u conn hok, ?_⟩
  · intro h c1 hh hbad
    have g := upload_RecvRes_guard ⟨s.hdr, ⟨0, [], none, []⟩, 0, []⟩ conn h c1 hh hbad
    rw [a1, a2]
    exact g
  · intro hok
    rw [a1] at hok
    have b := upload_RecvRes_ok_bounds ⟨s.hdr, ⟨0, [], none, []⟩, 0, []⟩ conn hok
    obtain ⟨e1, e2⟩ := a3 hok
    rw [e1, e2]
    exact b

/-- C18, witness: a header announcing 1000000 bytes, and one announcing -1, are refused
with the payload left unread; the "group1" response succeeds with a 25-byte fileId. -/
theorem RecvRes_payload_length_guard_witness :
    ((⟨⟨0, 0, 0⟩, ⟨0, [], none, []⟩, 0, []⟩ : storageUploadTask).RecvRes
      (replyConn (header.bytes ⟨1000000, 11, 0⟩ ++ [1, 2, 3]) [])).conn.pending = [1, 2, 3] ∧
    ((⟨⟨0, 0, 0⟩, ⟨0, [], none, []⟩, 0, [], [], [], []⟩ : storageUploadSlaveTask).RecvRes
      (replyConn (header.bytes ⟨-1, 21, 0⟩ ++ [1, 2, 3]) [])).conn.pending = [1, 2, 3] ∧
    ((⟨⟨0, 0, 0⟩, ⟨0, [], none, []⟩, 0, []⟩ : storageUploadTask).RecvRes
      (replyConn (header.bytes ⟨34, 11, 0⟩ ++
        (fixedField 16 (ascii "group1") ++ ascii "M00/00/00/test.txt")) [])).task.fileId.length
      ≤ 101 := by
  refine ⟨?_, ?_, ?_⟩
  · have h := (RecvRes_payload_length_guard
      (⟨⟨0, 0, 0⟩, ⟨0, [], none, []⟩, 0, []⟩ : storageUploadTask)
      (⟨⟨0, 0, 0⟩, ⟨0, [], none, []⟩, 0, [], [], [], []⟩ : storageUploadSlaveTask)
      (replyConn (header.bytes ⟨1000000, 11, 0⟩ ++ [1, 2, 3]) [])).1
      ⟨1000000, 11, 0⟩ (replyConn [1, 2, 3] []) (by decide) (by decide)
    rw [h.2]
    rfl
  · have h := (RecvRes_payload_length_guard
      (⟨⟨0, 0, 0⟩, ⟨0, [], none, []⟩, 0, []⟩ : storageUploadTask)
      (⟨⟨0, 0, 0⟩, ⟨0, [], none, []⟩, 0, [], [], [], []⟩ : storageUploadSlaveTask)
      (replyConn (header.bytes ⟨-1, 21, 0⟩ ++ [1, 2, 3]) [])).2.1
      ⟨-1, 21, 0⟩ (replyConn [1, 2, 3] []) (by decide) (by decide)
    rw [h.2]
    rfl
  · exact ((RecvRes_payload_length_guard
      (⟨⟨0, 0, 0⟩, ⟨0, [], none, []⟩, 0, []⟩ : storageUploadTask)
      (⟨⟨0, 0, 0⟩, ⟨0, [], none, []⟩, 0, [], [], [], []⟩ : storageUploadSlaveTask)
      (replyConn (header.bytes ⟨34, 11, 0⟩ ++
        (fixedField 16 (ascii "group1") ++ ascii "M00/00/00/test.txt")) [])).2.2.1
      (by decide)).2.2

/-! ## What the upload-slave request does not send -/

/-- C19: the result of the upload-slave `SendReq` and every byte it writes are the same
for two tasks that differ only in storagePathIndex and in fileInfo.fileExtName. -/
theorem uploadSlave_SendReq_ignores_index_and_fileInfo_ext (P : ProtoCmd)
    (this : storageUploadSlaveTask) (conn : Conn) (storagePathIndex : Int)
    (fileExtName : List Byte) :
    (storageUploadSlaveTask.SendReq P
        { this with storagePathIndex := storagePathIndex,
                    fileInfo := { this.fileInfo with fileExtName := fileExtName } } conn).res =
      (this.SendReq P conn).res ∧
    (storageUploadSlaveTask.SendReq P
        { this with storagePathIndex := storagePathIndex,
                    fileInfo := { this.fileInfo with fileExtName := fileExtName } } conn).conn =
      (this.SendReq P conn).conn := by
  simp only [storageUploadSlaveTask.SendReq, header.SendHeader, sendFile]
  generalize header.bytes _ = hb
  cases conn.Write hb with
  | none => exact ⟨rfl, rfl⟩
  | some c1 =>
    simp only []
    generalize c1.Write _ = w
    cases w with
    | none => exact ⟨rfl, rfl⟩
    | some c2 =>
      simp only []
      cases this.fileInfo.file with
      | none =>
        simp only []
        cases c2.Write this.fileInfo.buffer <;> exact ⟨rfl, rfl⟩
      | some content =>
        simp only []
        cases c2.Write content <;> exact ⟨rfl, rfl⟩

/-! ## 32-bit fields inside 64-bit words -/

theorem foldl_beNat (l : List Byte) (a : Nat) :
    l.foldl (fun acc (b : Byte) => acc * 256 + b.val) a = a * 256 ^ l.length + beNat l := by
  unfold beNat
  induction l generalizing a with
  | nil => simp
  | cons b t ih =>
    simp only [List.foldl_cons, List.length_cons]
    rw [ih (a * 256 + b.val), ih (0 * 256 + b.val)]
    ring

theorem beNat_append (a b : List Byte) :
    beNat (a ++ b) = beNat a * 256 ^ b.length + beNat b := by
  show (a ++ b).foldl _ 0 = _
  rw [List.foldl_append]
  exact foldl_beNat b _

theorem beNat_lt (l : List Byte) : beNat l < 256 ^ l.length := by
  induction l with
  | nil => simp [beNat]
  | cons b t ih =>
    have h := beNat_append [b] t
    have hb : beNat [b] = b.val := by simp [beNat]
    simp only [List.singleton_append] at h
    rw [h, hb, List.length_cons, pow_succ]
    have : b.val < 256 := b.isLt
    nlinarith

/-- The low 32 bits of a big-endian 64-bit word are its last four bytes. -/
theorem beNat_low32 (l : List Byte) (h : l.length = 8) :
    beNat l % 2 ^ 32 = beNat (l.drop 4) := by
  have hs : l = l.take 4 ++ l.drop 4 := (List.take_append_drop 4 l).symm
  have hd : (l.drop 4).length = 4 := by simp [h]
  have hlt := beNat_lt (l.drop 4)
  rw [hd] at hlt
  conv_lhs => rw [hs]
  rw [beNat_append, hd]
  have e : (256 : Nat) ^ 4 = 2 ^ 32 := by norm_num
  rw [e] at hlt ⊢
  rw [Nat.mul_add_mod_of_lt hlt]

theorem word_low32 (payload : List Byte) (off : Nat) (h : off + 8 ≤ payload.length) :
    beNat ((payload.drop off).take 8) % 2 ^ 32 = beNat ((payload.drop (off + 4)).take 4) := by
  rw [beNat_low32 _ (by simp; omega), List.drop_take, List.drop_drop]

theorem wrapInt32_small (v : Nat) (h : v < 2 ^ 31) : wrapInt32 (v : Int) = v := by
  unfold wrapInt32
  omega

theorem wrapInt32_high (v : Nat) (h1 : 2 ^ 31 ≤ v) (h2 : v < 2 ^ 32) :
    wrapInt32 (v : Int) = (v : Int) - 2 ^ 32 := by
  unfold wrapInt32
  omega

/-- C20: for a delivered query-file-info payload of at least 39 bytes, `RecvRes` returns
no error and the decoded CreateTimeStamp and CRC32 are the low 32 bits, read as signed
32-bit integers, of the big-endian 64-bit words at payload offsets 8..16 and 16..24; a
word below 2^31 is decoded exactly, and a CRC word from 2^31 to 2^32 - 1 is decoded as
the word minus 2^32. -/
theorem queryFileInfo_RecvRes_low32 (this : storageQueryFileInfoTask) (conn : Conn)
    (h : header) (payload rest : List Byte)
    (hpend : conn.pending = h.bytes ++ (payload ++ rest))
    (hseg : ∀ s ∈ conn.segs.head?, 10 ≤ s)
    (hst : h.status = 0)
    (hlen : h.pkgLen = payload.length)
    (hfit : (payload.length : Int) < 2 ^ 63)
    (h39 : 39 ≤ payload.length) :
    (this.RecvRes conn).res = .ok ∧
    ∃ info, (this.RecvRes conn).task.fileInfo = some info ∧
      info.CreateTimeStamp =
        wrapInt32 ((beNat ((payload.drop 8).take 8) % 2 ^ 32 : Nat) : Int) ∧
      info.CRC32 =
        wrapInt32 ((beNat ((payload.drop 16).take 8) % 2 ^ 32 : Nat) : Int) ∧
      (beNat ((payload.drop 8).take 8) < 2 ^ 31 →
        info.CreateTimeStamp = (beNat ((payload.drop 8).take 8) : Int)) ∧
      (beNat ((payload.drop 16).take 8) < 2 ^ 31 →
        info.CRC32 = (beNat ((payload.drop 16).take 8) : Int)) ∧
      (2 ^ 31 ≤ beNat ((payload.drop 16).take 8) → beNat ((payload.drop 16).take 8) < 2 ^ 32 →
        info.CRC32 = (beNat ((payload.drop 16).take 8) : Int) - 2 ^ 32) := by
  obtain ⟨hok, hinfo⟩ :=
    queryFileInfo_RecvRes_fields this conn h payload rest hpend hseg hst hlen hfit h39
  have w1 := word_low32 payload 8 (by omega)
  have w2 := word_low32 payload 16 (by omega)
  refine ⟨hok, _, hinfo, ?_, ?_, ?_, ?_, ?_⟩
  · show wrapInt32 _ = wrapInt32 _
    rw [w1]
  · show wrapInt32 _ = wrapInt32 _
    rw [w2]
  · intro hv
    show wrapInt32 _ = _
    rw [← w1, Nat.mod_eq_of_lt (by omega)]
    exact wrapInt32_small _ hv
  · intro hv
    show wrapInt32 _ = _
    rw [← w2, Nat.mod_eq_of_lt (by omega)]
    exact wrapInt32_small _ hv
  · intro hv1 hv2
    show wrapInt32 _ = _
    rw [← w2, Nat.mod_eq_of_lt hv2]
    exact wrapInt32_high _ hv1 hv2

/-- C20, witness: a server sending the 64-bit words 1700000000 (timestamp) and
4000000000 (CRC) after fileSize 2048: the timestamp is decoded exactly, the CRC as
4000000000 - 2^32 = -294967296. -/
theorem queryFileInfo_RecvRes_low32_witness :
    ∃ info, ((⟨⟨0, 0, 0⟩, ascii "group1", ascii "M00/a", none, []⟩ :
        storageQueryFileInfoTask).RecvRes
      (replyConn (header.bytes ⟨39, 22, 0⟩ ++
        ((binaryWriteInt64 2048 ++ binaryWriteInt64 1700000000 ++ binaryWriteInt64 4000000000
          ++ fixedField 15 (ascii "192.168.1.1")) ++ []))
        [])).task.fileInfo = some info ∧
      info.CreateTimeStamp = 1700000000 ∧ info.CRC32 = -294967296 := by
  obtain ⟨_, info, hinfo, _, _, ht, _, hc⟩ := queryFileInfo_RecvRes_low32
    (⟨⟨0, 0, 0⟩, ascii "group1", ascii "M00/a", none, []⟩ : storageQueryFileInfoTask)
    (replyConn (header.bytes ⟨39, 22, 0⟩ ++
        ((binaryWriteInt64 2048 ++ binaryWriteInt64 1700000000 ++ binaryWriteInt64 4000000000
          ++ fixedField 15 (ascii "192.168.1.1")) ++ []))
        [])
    ⟨39, 22, 0⟩
    (binaryWriteInt64 2048 ++ binaryWriteInt64 1700000000 ++ binaryWriteInt64 4000000000
          ++ fixedField 15 (ascii "192.168.1.1")) []
    rfl (by decide) rfl (by decide) (by decide) (by decide)
  refine ⟨info, hinfo, ?_, ?_⟩
  · rw [ht (by decide)]
    decide
  · rw [hc (by decide) (by decide)]
    decide

end FdfsClient
